import Mathlib

/-!
Shallow embedding of the MistQL python implementation (src/py/mistql) and
verification of a set of specification claims about it.

Conventions used throughout:
* Python floats are modelled as exact rationals (`ℚ`); IEEE-754 rounding is
  not modelled.  No claim under study depends on float rounding.
* Rational arithmetic is expressed through `Rat.divInt` and integer
  arithmetic (`pyAdd`, `pySub`, ...) so that concrete runs reduce inside the
  kernel; these equal the ordinary `ℚ` operations (see `pySub_eq` etc.).
* Python strings compare lexicographically by code point; this is embedded
  directly on the character lists (`charsLt`) for the same reason.
* Python dicts are modelled as insertion-ordered association lists with
  last-write-wins update (`dictSet`).
* Python exceptions are modelled by the `Err` type; fallible code returns
  `Except Err _`.
-/

namespace MistQL

/-- Model of the exceptions raised by the python code: plain `Exception`,
the MistQL exception classes from exceptions.py, and the python builtin
errors that the code can raise (`AttributeError`, `ValueError`,
`ZeroDivisionError`). -/
inductive Err where
  | exc (msg : String)
  | typeError (msg : String)
  | referenceError (msg : String)
  | openAnIssue (msg : String)
  | attributeError (msg : String)
  | valueError (msg : String)
  | zeroDivisionError (msg : String)
  deriving DecidableEq, Repr

/-- Tags for the function objects stored in the `builtins` dict of
builtins.py; a MistQL `Function` runtime value carries one of these, and
python referential identity of the function objects becomes tag equality. -/
inductive BuiltinFn where
  | dot | unary_minus | unary_not | add | subtract | multiply | divide | mod
  | eq | neq | gt | gte | lt | lte | and_fn | or_fn | match_operator
  | apply | count | keys | entries | fromentries | matchB | split | values
  | groupby | floatB | mapB | filterB | reduce | find | index | stringB
  | sort | sortby | mapvalues | mapkeys | filtervalues | filterkeys
  | if_else | reverse | regex | log | stringjoin | withindices | replace
  | summarize | sequence
  deriving DecidableEq, Repr

/-- The MistQL runtime value (runtime_value.py `RuntimeValue`): a tagged
union of the eight variants.  `number` carries a rational (exact model of a
python float), `object` an insertion-ordered association list, `function`
a builtin tag, and `regex` carries the pattern source, the `i`/`m`/`s`
flag bits, and the `global` entry of the side-band `modifiers` dict. -/
inductive RuntimeValue where
  | null
  | boolean (b : Bool)
  | number (q : ℚ)
  | string (s : String)
  | array (items : List RuntimeValue)
  | object (entries : List (String × RuntimeValue))
  | function (f : BuiltinFn)
  | regex (pattern : String) (flagI flagM flagS : Bool) (isGlobal : Bool)
  deriving Repr

abbrev Res := Except Err RuntimeValue

/-! ### Kernel-computable models of python float and str primitives -/

/-- Python float addition, modelled exactly on rationals.  Written with
`Rat.divInt` so that concrete computations reduce. -/
def pyAdd (a b : ℚ) : ℚ := Rat.divInt (a.num * b.den + b.num * a.den) (a.den * b.den)

/-- Python float subtraction, modelled exactly on rationals. -/
def pySub (a b : ℚ) : ℚ := Rat.divInt (a.num * b.den - b.num * a.den) (a.den * b.den)

/-- Python float multiplication, modelled exactly on rationals. -/
def pyMul (a b : ℚ) : ℚ := Rat.divInt (a.num * b.num) (a.den * b.den)

/-- Python float division, modelled exactly on rationals.  The caller is
responsible for the `ZeroDivisionError` python raises on a zero divisor. -/
def pyDiv (a b : ℚ) : ℚ := Rat.divInt (a.num * b.den) (a.den * b.num)

/-- Truncation toward zero: python `int(x)` on a float. -/
def pyTrunc (q : ℚ) : ℤ := q.num.tdiv q.den

/-- Floor: used by the model of python float `%`. -/
def pyFloor (q : ℚ) : ℤ := q.num.fdiv q.den

/-- Python float `a % b` for `b ≠ 0`: `a - b * floor(a / b)` (the result
takes the sign of `b`, as in python).  The caller is responsible for the
`ZeroDivisionError` python raises when `b = 0`. -/
def pyMod (a b : ℚ) : ℚ := pySub a (pyMul b ((pyFloor (pyDiv a b) : ℤ) : ℚ))

theorem pyAdd_eq (a b : ℚ) : pyAdd a b = a + b := by
  have hda : ((a.den : ℚ)) ≠ 0 := by exact_mod_cast a.den_nz
  have hdb : ((b.den : ℚ)) ≠ 0 := by exact_mod_cast b.den_nz
  rw [pyAdd, Rat.divInt_eq_div]
  conv_rhs => rw [← Rat.num_div_den a, ← Rat.num_div_den b]
  rw [div_add_div _ _ hda hdb]
  push_cast
  ring_nf

theorem pySub_eq (a b : ℚ) : pySub a b = a - b := by
  have hda : ((a.den : ℚ)) ≠ 0 := by exact_mod_cast a.den_nz
  have hdb : ((b.den : ℚ)) ≠ 0 := by exact_mod_cast b.den_nz
  rw [pySub, Rat.divInt_eq_div]
  conv_rhs => rw [← Rat.num_div_den a, ← Rat.num_div_den b]
  rw [div_sub_div _ _ hda hdb]
  push_cast
  ring_nf

theorem pyMul_eq (a b : ℚ) : pyMul a b = a * b := by
  have hda : ((a.den : ℚ)) ≠ 0 := by exact_mod_cast a.den_nz
  have hdb : ((b.den : ℚ)) ≠ 0 := by exact_mod_cast b.den_nz
  rw [pyMul, Rat.divInt_eq_div]
  conv_rhs => rw [← Rat.num_div_den a, ← Rat.num_div_den b]
  rw [div_mul_div_comm]
  push_cast
  ring_nf

/-- Lexicographic order on character lists by code point: the model of
python string `<`. -/
def charsLt : List Char → List Char → Bool
  | [], [] => false
  | [], _ :: _ => true
  | _ :: _, [] => false
  | c :: cs, d :: ds =>
    if c.toNat < d.toNat then true
    else if d.toNat < c.toNat then false
    else charsLt cs ds

/-- Python string `a < b`. -/
def strLt (a b : String) : Bool := charsLt a.data b.data

/-! ### Python number and string formatting (runtime_value.py) -/

/-- Hexadecimal digit, lowercase, as produced by python `json.dumps`. -/
def hexDigit (n : Nat) : Char :=
  if n < 10 then Char.ofNat (48 + n) else Char.ofNat (87 + n)

/-- Four-digit hexadecimal rendering used by `\uXXXX` escapes. -/
def hexFour (n : Nat) : List Char :=
  [hexDigit (n / 4096 % 16), hexDigit (n / 256 % 16), hexDigit (n / 16 % 16), hexDigit (n % 16)]

/-- Escape of a single character under python `json.dumps` with its default
`ensure_ascii=True`: the two-character escapes, `\uXXXX` for other control
or non-ASCII characters, and surrogate pairs beyond the basic plane. -/
def escChar (c : Char) : List Char :=
  if c = '"' then ['\\', '"']
  else if c = '\\' then ['\\', '\\']
  else if c = '\n' then ['\\', 'n']
  else if c = '\t' then ['\\', 't']
  else if c = '\r' then ['\\', 'r']
  else if c.toNat = 8 then ['\\', 'b']
  else if c.toNat = 12 then ['\\', 'f']
  else if c.toNat < 32 ∨ c.toNat > 126 then
    if c.toNat ≤ 65535 then '\\' :: 'u' :: hexFour c.toNat
    else
      ('\\' :: 'u' :: hexFour (55296 + (c.toNat - 65536) / 1024)) ++
      ('\\' :: 'u' :: hexFour (56320 + (c.toNat - 65536) % 1024))
  else [c]

/-- Python `json.dumps` of a string: quote and escape. -/
def jsonEscape (s : String) : String :=
  "\"" ++ String.mk (s.data.map escChar).flatten ++ "\""

/-- Fractional decimal digits of `num / den` (with `num < den`) by long
division, at most `fuel` digits, stopping when the remainder hits zero. -/
def decimalFracDigits (fuel : Nat) (num den : Nat) : List Char :=
  match fuel with
  | 0 => []
  | fuel + 1 =>
    if num = 0 ∨ den = 0 then []
    else
      let d := num * 10 / den
      Char.ofNat (48 + d) :: decimalFracDigits fuel (num * 10 % den) den

/-- Model of CPython `repr`/`str` of a finite float, rendered as sign,
integer part, a dot, and the fractional digits (exact when the expansion
terminates within 17 digits).  CPython prints the shortest round-tripping
decimal and switches to scientific notation for very small or very large
magnitudes; those differences are not modelled — no claim under study
evaluates this rendering on inputs where they differ. -/
def pyFloatRepr (q : ℚ) : String :=
  let sign := if q < 0 then "-" else ""
  let a : ℚ := if q < 0 then -q else q
  let ip : ℤ := pyFloor a
  let fracNum : ℤ := a.num - ip * a.den
  let digits := decimalFracDigits 17 fracNum.toNat a.den
  sign ++ toString ip ++ "." ++ (if digits.isEmpty then "0" else String.mk digits)

/-- Model of python `"{:.16f}".format(value)`: sign, integer part, and
exactly sixteen fractional digits (CPython rounds the seventeenth digit
half-to-even; this model truncates — no claim under study evaluates the
difference). -/
def fixed16 (q : ℚ) : String :=
  let sign := if q < 0 then "-" else ""
  let a : ℚ := if q < 0 then -q else q
  let ip : ℤ := pyFloor a
  let fracNum : ℤ := a.num - ip * a.den
  let digits := decimalFracDigits 16 fracNum.toNat a.den
  let padded := digits ++ List.replicate (16 - digits.length) '0'
  sign ++ toString ip ++ "." ++ String.mk padded

/-- Python `.rstrip("0")`: drop trailing `0` characters. -/
def rstripZeros (s : String) : String :=
  String.mk ((s.data.reverse.dropWhile (· = '0')).reverse)

/-- Model of `e_zero_regex.sub("e-", formatted)` from runtime_value.py:
every occurrence of `e-` followed by a run of zeros collapses to `e-`. -/
def collapseEZeros (l : List Char) : List Char :=
  match l with
  | [] => []
  | 'e' :: '-' :: '0' :: rest =>
    'e' :: '-' :: collapseEZeros (rest.dropWhile (· = '0'))
  | c :: rest => c :: collapseEZeros rest
termination_by l.length
decreasing_by
  · simp only [List.length_cons]
    have := (List.dropWhile_sublist (l := rest) (p := fun c => decide (c = '0'))).length_le
    omega
  · simp [List.length_cons]

/-- runtime_value.py `UPPER_NUM_FORMATTING_BREAKPOINT` (1e21). -/
def upperNumFormattingBreakpoint : ℚ := 10 ^ 21

/-- runtime_value.py `LOWER_NUM_FORMATTING_BREAKPOINT` (1e-7). -/
def lowerNumFormattingBreakpoint : ℚ := Rat.divInt 1 (10 ^ 7)

/-- runtime_value.py `MAX_SAFE_INT` (2⁵³ − 1). -/
def maxSafeInt : ℚ := ((2 ^ 53 - 1 : ℤ) : ℚ)

/-- runtime_value.py `format_number`.  The test `value == int(value)`
holds exactly when the rational is an integer, i.e. its denominator is 1. -/
def format_number (q : ℚ) : String :=
  if q < upperNumFormattingBreakpoint ∧ q ≥ maxSafeInt then
    toString (pyTrunc q)
  else if q < upperNumFormattingBreakpoint ∧ q.den = 1 then
    toString (pyTrunc q)
  else if q < 1 ∧ q ≤ lowerNumFormattingBreakpoint then
    String.mk (collapseEZeros (pyFloatRepr q).data)
  else if q < 1 then
    rstripZeros (fixed16 q)
  else
    pyFloatRepr q

/-! ### RuntimeValue operations (runtime_value.py) -/

/-- runtime_value.py `RuntimeValueType`. -/
inductive RuntimeValueType where
  | Null | Boolean | Number | String | Object | Array | Function | Regex
  deriving DecidableEq, Repr

/-- The `type` field of a runtime value. -/
def RuntimeValue.type : RuntimeValue → RuntimeValueType
  | .null => .Null
  | .boolean _ => .Boolean
  | .number _ => .Number
  | .string _ => .String
  | .array _ => .Array
  | .object _ => .Object
  | .function _ => .Function
  | .regex _ _ _ _ _ => .Regex

/-- Look a key up in an association list (python `d[k]` / `k in d`). -/
def lookupEntry (key : String) : List (String × RuntimeValue) → Option RuntimeValue
  | [] => Option.none
  | (k, v) :: rest => if k = key then some v else lookupEntry key rest

/-- Python dict assignment `d[k] = v`: replaces the value in place if the
key exists, otherwise appends, preserving insertion order. -/
def dictSet (key : String) (v : RuntimeValue) :
    List (String × RuntimeValue) → List (String × RuntimeValue)
  | [] => [(key, v)]
  | (k, w) :: rest =>
    if k = key then (k, v) :: rest else (k, w) :: dictSet key v rest

/-- runtime_value.py `RuntimeValue.truthy`. -/
def RuntimeValue.truthy : RuntimeValue → Bool
  | .null => false
  | .boolean b => b
  | .number q => decide (q ≠ 0)
  | .string s => s ≠ ""
  | .array items => decide (0 < items.length)
  | .object entries => decide (0 < entries.length)
  | .function _ => true
  | .regex _ _ _ _ _ => true

/-- runtime_value.py `RuntimeValue.comparable`. -/
def RuntimeValue.comparable : RuntimeValue → Bool
  | .boolean _ => true
  | .number _ => true
  | .string _ => true
  | _ => false

/-- runtime_value.py `RuntimeValue.compare`: defined only within one of the
comparable variants.  Booleans compare by subtraction of their integer
casts, numbers by float subtraction, strings by `(a > b) - (a < b)`. -/
def RuntimeValue.compare (a b : RuntimeValue) : Except Err ℚ :=
  if a.type ≠ b.type then
    .error (.valueError "Cannot compare MistQL values of different types")
  else if ¬ a.comparable then
    .error (.valueError "Cannot compare MistQL values of this type")
  else
    match a, b with
    | .boolean x, .boolean y =>
      .ok ((((if x then (1 : ℤ) else 0) - (if y then (1 : ℤ) else 0) : ℤ) : ℚ))
    | .number x, .number y => .ok (pySub x y)
    | .string x, .string y =>
      .ok ((((if strLt y x then (1 : ℤ) else 0) - (if strLt x y then (1 : ℤ) else 0) : ℤ) : ℚ))
    | _, _ => .error (.openAnIssue "Cannot compare MistQL values of this type")

mutual

/-- runtime_value.py `RuntimeValue.eq`: deep structural equality.  Values
of different types are unequal; arrays compare by length and then
pointwise; objects compare by length and then by looking every key of the
left operand up in the right; regexes compare pattern source, flag bits
and the `global` modifier; functions compare by identity (tag). -/
def RuntimeValue.eq : RuntimeValue → RuntimeValue → Bool
  | .null, .null => true
  | .boolean a, .boolean b => a == b
  | .number a, .number b => decide (a = b)
  | .string a, .string b => a == b
  | .array a, .array b => a.length == b.length && RuntimeValue.eqList a b
  | .object a, .object b => a.length == b.length && RuntimeValue.eqEntries a b
  | .regex p1 i1 m1 s1 g1, .regex p2 i2 m2 s2 g2 =>
    p1 == p2 && i1 == i2 && m1 == m2 && s1 == s2 && g1 == g2
  | .function f1, .function f2 => f1 == f2
  | _, _ => false

/-- Pointwise equality of array payloads. -/
def RuntimeValue.eqList : List RuntimeValue → List RuntimeValue → Bool
  | [], [] => true
  | x :: xs, y :: ys => RuntimeValue.eq x y && RuntimeValue.eqList xs ys
  | _, _ => false

/-- Every key of the left entries is present in the right entries with an
equal value (the length check of `eq` makes this an equality test on
python dicts). -/
def RuntimeValue.eqEntries :
    List (String × RuntimeValue) → List (String × RuntimeValue) → Bool
  | [], _ => true
  | (k, v) :: rest, b =>
    (match lookupEntry k b with
     | some w => RuntimeValue.eq v w
     | none => false) && RuntimeValue.eqEntries rest b

end

/-- runtime_value.py `RuntimeValue.keys`: the key list of an object, empty
for every other variant. -/
def RuntimeValue.keys : RuntimeValue → List String
  | .object entries => entries.map Prod.fst
  | _ => []

/-- runtime_value.py `RuntimeValue.access`: a string property of an
object, Null when missing or when the value is not an object. -/
def RuntimeValue.access (v : RuntimeValue) (key : String) : RuntimeValue :=
  match v with
  | .object entries => (lookupEntry key entries).getD .null
  | _ => .null

mutual

/-- runtime_value.py `RuntimeValue.to_json` (with its default
`permissive=False`, the only mode the core evaluation path uses):
functions and regexes cannot be rendered and raise `ValueError`. -/
def RuntimeValue.to_json : RuntimeValue → Except Err String
  | .null => .ok "null"
  | .boolean b => .ok (if b then "true" else "false")
  | .number q => .ok (if q.den = 1 then toString (pyTrunc q) else pyFloatRepr q)
  | .string s => .ok (jsonEscape s)
  | .array items =>
    (RuntimeValue.toJsonList items).map
      (fun parts => "[" ++ String.intercalate "," parts ++ "]")
  | .object entries =>
    (RuntimeValue.toJsonEntries entries).map
      (fun parts => "\x7b" ++ String.intercalate "," parts ++ "\x7d")
  | .function _ => .error (.valueError "Cannot convert MistQL value to JSON: function")
  | .regex _ _ _ _ _ => .error (.valueError "Cannot convert MistQL value to JSON: regex")

/-- JSON rendering of each element of an array payload. -/
def RuntimeValue.toJsonList : List RuntimeValue → Except Err (List String)
  | [] => .ok []
  | x :: xs => do
    let s ← RuntimeValue.to_json x
    let rest ← RuntimeValue.toJsonList xs
    .ok (s :: rest)

/-- JSON rendering `"key":value` of each entry of an object payload. -/
def RuntimeValue.toJsonEntries : List (String × RuntimeValue) → Except Err (List String)
  | [] => .ok []
  | (k, v) :: rest => do
    let s ← RuntimeValue.to_json v
    let tail ← RuntimeValue.toJsonEntries rest
    .ok ((jsonEscape k ++ ":" ++ s) :: tail)

end

/-- runtime_value.py `RuntimeValue.to_string`: strings pass through,
numbers use `format_number`, everything else renders as JSON (which
raises for functions and regexes). -/
def RuntimeValue.to_string : RuntimeValue → Except Err String
  | .string s => .ok s
  | .number q => .ok (format_number q)
  | v => v.to_json

/-- runtime_value.py `RuntimeValue.to_float`.  The `float(str)` parse that
python applies to String operands is an external-collaborator behaviour
this model does not embed (no claim exercises it); it is mapped to a
distinguished error. -/
def RuntimeValue.to_float : RuntimeValue → Except Err ℚ
  | .number q => .ok q
  | .string _ => .error (.exc "model boundary: float parsing of strings is not embedded")
  | .boolean b => .ok (if b then 1 else 0)
  | .null => .ok 0
  | _ => .error (.typeError "Cannot convert MistQL value to float")

/-! ### The garden wall (gardenwall.py, runtime_value.py `of`/`to_python`) -/

/-- JSON-shaped python host value: `None`, `bool`, `int`, `float` (finite
rational-valued doubles; rationals have no NaN or infinities, so the
non-finite branch of `RuntimeValue.of` is vacuous here — the round-trip
claim explicitly excludes non-finite numbers), `str`, `list`, and a
string-keyed `dict`.  Python date/time objects are outside this type. -/
inductive PyValue where
  | none
  | bool (b : Bool)
  | int (n : ℤ)
  | float (q : ℚ)
  | str (s : String)
  | list (items : List PyValue)
  | dict (entries : List (String × PyValue))

/-- Binary length of a natural number, capped: `Option.some b` when `m`
has exactly `b` bits and `b ≤ fuel`, `Option.none` when `m` needs more
than `fuel` bits (i.e. `m ≥ 2 ^ fuel`).  Structural on the fuel so the
kernel evaluates it. -/
def bitLenCapped : Nat → Nat → Option Nat
  | _, 0 => Option.some 0
  | 0, _ => Option.none
  | fuel + 1, m => (bitLenCapped fuel (m / 2)).map (fun b => b + 1)

/-- CPython `float(int)`: exact for integers of at most 53 bits; a larger
magnitude is rounded to 53 significant bits, ties to even (the IEEE-754
binary64 conversion CPython performs), and a rounded magnitude of at
least `2 ^ 1024` raises `OverflowError: int too large to convert to
float`.  Any integer of more than 1200 bits already exceeds `2 ^ 1024`,
so capping the bit-length scan at 1200 loses nothing. -/
def pyFloatOfInt (n : ℤ) : Except Err ℚ :=
  let m := n.natAbs
  match bitLenCapped 1200 m with
  | Option.none => .error (.exc "OverflowError: int too large to convert to float")
  | Option.some b =>
    if b ≤ 53 then .ok ((n : ℤ) : ℚ)
    else
      let e := b - 53
      let q := m / 2 ^ e
      let r := m % 2 ^ e
      let half := 2 ^ (e - 1)
      let mant :=
        if half < r then q + 1
        else if r < half then q
        else if q % 2 = 0 then q else q + 1
      let v := mant * 2 ^ e
      if 2 ^ 1024 ≤ v then
        .error (.exc "OverflowError: int too large to convert to float")
      else .ok (if n < 0 then -((v : ℕ) : ℚ) else ((v : ℕ) : ℚ))

mutual

/-- runtime_value.py `RuntimeValue.of` on host values (the eager
`lazy=False` path; the spec stipulates the lazy variant is observationally
identical).  Bools map to Boolean (checked before int, as in python),
ints to Number through `float()` — which rounds magnitudes above 53 bits
and raises `OverflowError` beyond the double range, see `pyFloatOfInt` —
finite floats to Number, strings to String, lists to Array, dicts to
Object. -/
def RuntimeValue.of : PyValue → Except Err RuntimeValue
  | .none => .ok .null
  | .bool b => .ok (.boolean b)
  | .int n => (pyFloatOfInt n).map .number
  | .float q => .ok (.number q)
  | .str s => .ok (.string s)
  | .list items => (RuntimeValue.ofList items).map .array
  | .dict entries => (RuntimeValue.ofEntries entries).map .object

/-- Elementwise conversion of a host list. -/
def RuntimeValue.ofList : List PyValue → Except Err (List RuntimeValue)
  | [] => .ok []
  | x :: xs => do
    let v ← RuntimeValue.of x
    let vs ← RuntimeValue.ofList xs
    .ok (v :: vs)

/-- Entrywise conversion of a host dict. -/
def RuntimeValue.ofEntries :
    List (String × PyValue) → Except Err (List (String × RuntimeValue))
  | [] => .ok []
  | (k, v) :: rest => do
    let w ← RuntimeValue.of v
    let ws ← RuntimeValue.ofEntries rest
    .ok ((k, w) :: ws)

end

mutual

/-- runtime_value.py `RuntimeValue.to_python`: the inverse conversion for
the JSON-representable variants; a Number exports its payload, a python
float.  Functions and regexes raise `ValueError`. -/
def RuntimeValue.to_python : RuntimeValue → Except Err PyValue
  | .null => .ok .none
  | .boolean b => .ok (.bool b)
  | .number q => .ok (.float q)
  | .string s => .ok (.str s)
  | .array items => (RuntimeValue.toPythonList items).map .list
  | .object entries => (RuntimeValue.toPythonEntries entries).map .dict
  | .function _ => .error (.valueError "Cannot convert MistQL value type to Python: function")
  | .regex _ _ _ _ _ => .error (.valueError "Cannot convert MistQL value type to Python: regex")

/-- Elementwise export of an array payload. -/
def RuntimeValue.toPythonList : List RuntimeValue → Except Err (List PyValue)
  | [] => .ok []
  | x :: xs => do
    let w ← RuntimeValue.to_python x
    let ws ← RuntimeValue.toPythonList xs
    .ok (w :: ws)

/-- Entrywise export of an object payload. -/
def RuntimeValue.toPythonEntries :
    List (String × RuntimeValue) → Except Err (List (String × PyValue))
  | [] => .ok []
  | (k, v) :: rest => do
    let w ← RuntimeValue.to_python v
    let ws ← RuntimeValue.toPythonEntries rest
    .ok ((k, w) :: ws)

end

/-- gardenwall.py `input_garden_wall` (eager path); an `OverflowError`
raised by `float()` inside `RuntimeValue.of` propagates. -/
def input_garden_wall (data : PyValue) : Except Err RuntimeValue :=
  RuntimeValue.of data

/-- gardenwall.py `output_garden_wall`. -/
def output_garden_wall (data : RuntimeValue) : Except Err PyValue := data.to_python

mutual

/-- Python `==` on JSON-shaped host values, restricted to the cases this
development needs: `int` and `float` compare numerically across kinds
(so `3 == 3.0` holds, as in python); lists compare pointwise; dicts are
compared entrywise in order, which under-approximates python dict
equality (python ignores order) — sufficient here because the round-trip
theorem proves this stronger relation, which implies the python one. -/
def pyEq : PyValue → PyValue → Bool
  | .none, .none => true
  | .bool a, .bool b => a == b
  | .int a, .int b => a == b
  | .int a, .float b => decide ((a : ℚ) = b)
  | .float a, .int b => decide (a = ((b : ℤ) : ℚ))
  | .float a, .float b => decide (a = b)
  | .str a, .str b => a == b
  | .list a, .list b => pyEqList a b
  | .dict a, .dict b => pyEqEntries a b
  | _, _ => false

/-- Pointwise python `==` on lists. -/
def pyEqList : List PyValue → List PyValue → Bool
  | [], [] => true
  | x :: xs, y :: ys => pyEq x y && pyEqList xs ys
  | _, _ => false

/-- Entrywise (ordered) python `==` on dict entry lists. -/
def pyEqEntries : List (String × PyValue) → List (String × PyValue) → Bool
  | [], [] => true
  | (k1, v1) :: xs, (k2, v2) :: ys => k1 == k2 && pyEq v1 v2 && pyEqEntries xs ys
  | _, _ => false

end

/-! ### AST (expression.py) and scope stack (stack.py) -/

/-- expression.py AST node type (the `BaseExpression` subclasses).
`RefExpression.__init__` assigns only `name`; execute.py nevertheless
reads a dynamic attribute `absolute` from every reference node it
evaluates.  The model therefore carries `absolute` as an `Option Bool`
that every construction site in the embedded source sets to `Option.none`
(the attribute is never assigned anywhere in the code); reading it then
raises `AttributeError`, exactly as python does for a missing attribute. -/
inductive Expr where
  | value (v : RuntimeValue)
  | ref (name : String) (absolute : Option Bool)
  | fncall (fn : Expr) (args : List Expr)
  | array (items : List Expr)
  | object (entries : List (String × Expr))
  | pipe (stages : List Expr)

/-- Whether a node is an `FnExpression` (python `isinstance` check used by
`execute_pipe`). -/
def Expr.isFnExpression : Expr → Bool
  | .fncall _ _ => true
  | _ => false

/-- A stack frame: a python dict from names to runtime values. -/
abbrev StackFrame := List (String × RuntimeValue)

/-- The scope stack: a list of frames, outermost (root) first. -/
abbrev Stack := List StackFrame

/-- stack.py `make_stack_entry_from_runtime_value`: a frame binding `@` to
the value plus, per own key of an Object focus, that key (a key literally
named `@` overwrites the focus binding, as python dict assignment does). -/
def make_stack_entry_from_runtime_value (value : RuntimeValue) : StackFrame :=
  value.keys.foldl (fun fr key => dictSet key (value.access key) fr) [("@", value)]

/-- stack.py `add_runtime_value_to_stack`: copy the stack and append the
new focus frame. -/
def add_runtime_value_to_stack (value : RuntimeValue) (stack : Stack) : Stack :=
  stack ++ [make_stack_entry_from_runtime_value value]

/-- stack.py `find_in_stack`: with `absolute` set, the search is
restricted to `stack[:1]`, the root frame; otherwise all frames are
scanned innermost-first.  A miss raises `MistQLReferenceError`. -/
def find_in_stack (stack : Stack) (name : String) (absolute : Bool) : Res :=
  let frames := (if absolute then stack.take 1 else stack).reverse
  match frames.findSome? (fun fr => lookupEntry name fr) with
  | some v => .ok v
  | Option.none => .error (.referenceError ("Could not find " ++ name ++ " in stack"))

/-- builtins.py: the `builtins` registration dict, keys in source order.
The later of the two `stringjoin` definitions in the module is the one the
dict references (the first is shadowed). -/
def builtins : List (String × BuiltinFn) :=
  [(".", .dot), ("-/unary", .unary_minus), ("!/unary", .unary_not),
   ("+", .add), ("-", .subtract), ("*", .multiply), ("/", .divide), ("%", .mod),
   ("==", .eq), ("!=", .neq), (">", .gt), (">=", .gte), ("<", .lt), ("<=", .lte),
   ("&&", .and_fn), ("||", .or_fn), ("=~", .match_operator),
   ("apply", .apply), ("count", .count), ("keys", .keys), ("entries", .entries),
   ("fromentries", .fromentries), ("match", .matchB), ("split", .split),
   ("values", .values), ("groupby", .groupby), ("float", .floatB), ("map", .mapB),
   ("filter", .filterB), ("reduce", .reduce), ("find", .find), ("index", .index),
   ("string", .stringB), ("sort", .sort), ("sortby", .sortby),
   ("mapvalues", .mapvalues), ("mapkeys", .mapkeys), ("filtervalues", .filtervalues),
   ("filterkeys", .filterkeys), ("if", .if_else), ("reverse", .reverse),
   ("regex", .regex), ("log", .log), ("stringjoin", .stringjoin),
   ("withindices", .withindices), ("replace", .replace), ("summarize", .summarize),
   ("sequence", .sequence)]

/-- stack.py `build_initial_stack`: a functions (root) frame holding the
wrapped builtins then the extras, a frame binding `$` to a synthetic
object of `@` plus all callables, and the focus frame for the input.
Extras are modelled as pre-built runtime values (the `from_py_func`
wrapping of host callables is an external-collaborator behaviour outside
this model). -/
def build_initial_stack (data : RuntimeValue)
    (builtinsArg : List (String × BuiltinFn))
    (extras : List (String × RuntimeValue)) : Stack :=
  let functionsFrame : StackFrame :=
    extras.foldl (fun fr p => dictSet p.1 p.2 fr)
      (builtinsArg.foldl (fun fr p => dictSet p.1 (.function p.2) fr) [])
  let dollarVarDict : List (String × RuntimeValue) :=
    functionsFrame.foldl (fun d p => dictSet p.1 p.2 d) [("@", data)]
  [functionsFrame, [("$", .object dollarVarDict)],
   make_stack_entry_from_runtime_value data]

/-! ### Lowering from the lark parse tree (parse.py) -/

/-- A raw lark parse node: an inner rule `Tree` with a `data` label, or a
terminal `Token` with a type and matched text. -/
inductive LarkNode where
  | tree (data : String) (children : List LarkNode)
  | token (ttype : String) (value : String)

/-- parse.py `function_mappings`: rule label to canonical operator name. -/
def function_mappings : List (String × String) :=
  [("dot", "."), ("neg", "-/unary"), ("not", "!/unary"),
   ("gt", ">"), ("lt", "<"), ("gte", ">="), ("lte", "<="),
   ("eq", "=="), ("neq", "!="), ("match", "=~"),
   ("plus", "+"), ("minus", "-"), ("mul", "*"), ("div", "/"), ("mod", "%"),
   ("and", "&&"), ("or", "||")]

/-- parse.py calls `ValueExpression.of(...)` for literal tokens and for
the Null slots of slice syntax, but expression.py defines no classmethod
`of` on `ValueExpression` (nor on `BaseExpression`), so in python every
such call raises `AttributeError` before its argument matters. -/
def valueExpression_of : Except Err Expr :=
  .error (.attributeError "type object ValueExpression has no attribute of")

/-- parse.py `process_lark_token`.  Literal tokens go through the missing
`ValueExpression.of` and therefore raise; reference tokens construct
`RefExpression(name)`, which leaves the `absolute` attribute unset. -/
def process_lark_token : String → String → Except Err Expr
  | "NUMBER", _ => valueExpression_of
  | "ESCAPED_STRING", _ => valueExpression_of
  | "TRUE", _ => valueExpression_of
  | "FALSE", _ => valueExpression_of
  | "NULL", _ => valueExpression_of
  | "CNAME", v => .ok (.ref v Option.none)
  | "AT", _ => .ok (.ref "@" Option.none)
  | "DOLLAR", _ => .ok (.ref "$" Option.none)
  | t, _ => .error (.exc ("Unknown token type " ++ t))

/-- Python dict assignment on the entry list of an `ObjectExpression`
under construction (duplicate keys keep the last value, first position). -/
def dictSetExpr (key : String) (v : Expr) :
    List (String × Expr) → List (String × Expr)
  | [] => [(key, v)]
  | (k, w) :: rest =>
    if k = key then (k, v) :: rest else (k, w) :: dictSetExpr key v rest

/-- Lowering of a list of child nodes, in order, through the lowering
callback (python recursion is modelled by the explicit fuel of
`from_lark` below; the helpers receive the lowering function for the
remaining depth, exactly as the evaluator helpers receive `execute`). -/
def from_lark_list (low : LarkNode → Except Err Expr) : List LarkNode → Except Err (List Expr)
  | [] => .ok []
  | x :: xs => do
    let e ← low x
    let es ← from_lark_list low xs
    .ok (e :: es)

/-- parse.py: the loop over `object` node children.  Each child is an
`object_entry` tree; the key is lowered and read back out of a
`ValueExpression` payload or a `RefExpression` name; the value is the
lowered second child; assignment into the python dict keeps the last
value for a duplicate key. -/
def process_object_entries (low : LarkNode → Except Err Expr) :
    List LarkNode → Except Err (List (String × Expr))
  | [] => .ok []
  | .tree _ (kNode :: vNode :: _) :: rest => do
    let key ← low kNode
    let keyStr ←
      match key with
      | .value (.string s) => pure s
      | .value _ => .error (.exc "Unknown key type")
      | .ref name _ => pure name
      | _ => .error (.exc "Unknown key type")
    let v ← low vNode
    let tail ← process_object_entries low rest
    .ok (dictSetExpr keyStr v tail)
  | _ :: _ => .error (.exc "object entry node does not have key and value children")

/-- parse.py: the loop over `index_innards` children, carrying
`fnexp_args` and `prev_was_token`.  A token whose text is a bare colon
separates slots; an empty slot appends `ValueExpression.of(None)`, which
raises (the classmethod does not exist). -/
def process_index_innards (low : LarkNode → Except Err Expr)
    (children : List LarkNode) (acc : List Expr) (prev : Bool) :
    Except Err (List Expr × Bool) :=
  match children with
  | [] => .ok (acc, prev)
  | .token _ ":" :: rest =>
    if prev then do
      let nullExpr ← valueExpression_of
      process_index_innards low rest (acc ++ [nullExpr]) true
    else
      process_index_innards low rest acc true
  | child :: rest => do
    let e ← low child
    process_index_innards low rest (acc ++ [e]) false

/-- parse.py: the `index` branch of `process_lark_tree`, which unpacks
the node into base and indexing, walks the innards, appends the Null
sentinel for a trailing empty slot (raising, since `ValueExpression.of`
does not exist), and appends the lowered base as the last argument. -/
def process_index_node (low : LarkNode → Except Err Expr) :
    List LarkNode → Except Err Expr
  | [base, .tree _ (innards :: _)] => do
    let argsPrev ←
      match innards with
      | .tree _ innardsChildren => process_index_innards low innardsChildren [] true
      | .token _ _ => .error (.attributeError "Token object has no attribute children")
    let args ←
      if argsPrev.2 then do
        let nullExpr ← valueExpression_of
        pure (argsPrev.1 ++ [nullExpr])
      else
        pure argsPrev.1
    let baseExpr ← low base
    .ok (.fncall (.ref "index" Option.none) (args ++ [baseExpr]))
  | _ => .error (.exc "index node does not unpack into base and indexing")

/-- parse.py `process_lark_tree` with the lowering callback for child
nodes.  The branches are tried in source order: `array`, `object`,
`pipe`, `fncall`, membership in `function_mappings`, `index`; anything
else raises.  Every `RefExpression` constructed here carries no
`absolute` attribute. -/
def process_lark_tree (low : LarkNode → Except Err Expr) :
    LarkNode → Except Err Expr
  | .token t _ => .error (.exc ("Unknown lark expression type: " ++ t))
  | .tree d children =>
    if d = "array" then
      (from_lark_list low children).map .array
    else if d = "object" then
      (process_object_entries low children).map .object
    else if d = "pipe" then
      (from_lark_list low children).map .pipe
    else if d = "fncall" then
      match children with
      | [] => .error (.exc "IndexError: fncall node with no children")
      | c0 :: rest => do
        let h ← low c0
        let args ← from_lark_list low rest
        .ok (.fncall h args)
    else
      match List.lookup d function_mappings with
      | some op =>
        (from_lark_list low children).map
          (fun args => Expr.fncall (.ref op Option.none) args)
      | Option.none =>
        if d = "index" then process_index_node low children
        else .error (.exc ("Unknown lark expression type: " ++ d))

/-- parse.py `from_lark`: dispatch on `Tree` versus `Token`, with fuel
standing in for the unbounded python recursion over the parse tree. -/
def from_lark : Nat → LarkNode → Except Err Expr
  | 0, _ => .error (.exc "model: recursion fuel exhausted")
  | _ + 1, .token t v => process_lark_token t v
  | fuel + 1, .tree d children =>
    process_lark_tree (fun n => from_lark fuel n) (.tree d children)

/-! ### Builtin helper primitives (builtins.py collaborators) -/

/-- Argument lists and the evaluator callback, as builtins.py
`Args = List[Expression]` and `Exec = Callable[[Expression, Stack], RuntimeValue]`. -/
abbrev Args := List Expr

/-- The evaluator callback handed to every builtin. -/
abbrev Exec := Expr → Stack → Res

/-- Boolean prefix test on character lists. -/
def charsPrefix : List Char → List Char → Bool
  | [], _ => true
  | _ :: _, [] => false
  | c :: cs, d :: ds => c == d && charsPrefix cs ds

/-- Model of python `re.Pattern.match` (anchored at position 0) for the
literal, metacharacter-free patterns this development evaluates: an
anchored match succeeds exactly when the pattern text is a prefix of the
target (python `re.match` never scans past the start); the `i` flag
lowercases both sides.  Metacharacter semantics of the python `re`
engine (an external collaborator) are not embedded. -/
def reMatchAtStart (pat : String) (ignoreCase : Bool) (target : String) : Bool :=
  if ignoreCase then charsPrefix pat.toLower.data target.toLower.data
  else charsPrefix pat.data target.data

/-- Python `str.replace(old, new, 1)`: replace the first occurrence of a
literal pattern (an empty pattern inserts once at the front). -/
def replaceFirstChars (pat repl : List Char) : List Char → List Char
  | [] => if pat.isEmpty then repl else []
  | c :: rest =>
    if charsPrefix pat (c :: rest) then repl ++ (c :: rest).drop pat.length
    else c :: replaceFirstChars pat repl rest

/-- Replace every non-overlapping occurrence of a nonempty literal
pattern (fuelled; used as the literal model of global `re.sub`). -/
def replaceAllChars : Nat → List Char → List Char → List Char → List Char
  | 0, _, _, s => s
  | _ + 1, _, _, [] => []
  | fuel + 1, pat, repl, c :: rest =>
    if ¬ pat.isEmpty ∧ charsPrefix pat (c :: rest) then
      repl ++ replaceAllChars fuel pat repl ((c :: rest).drop pat.length)
    else c :: replaceAllChars fuel pat repl rest

/-- Splitting on every occurrence of a nonempty literal separator,
keeping empty pieces: python `str.split(sep)`. -/
def splitCharsAux : Nat → List Char → List Char → List Char → List (List Char)
  | 0, _, cur, s => [cur.reverse ++ s]
  | _ + 1, _, cur, [] => [cur.reverse]
  | fuel + 1, sep, cur, c :: rest =>
    if charsPrefix sep (c :: rest) then
      cur.reverse :: splitCharsAux fuel sep [] ((c :: rest).drop sep.length)
    else splitCharsAux fuel sep (c :: cur) rest

/-- Python `target.split(sep)` for nonempty `sep`. -/
def splitChars (sep s : List Char) : List (List Char) :=
  splitCharsAux (s.length + 1) sep [] s

/-- Effective python slice bound for a sequence of length `n`: a
still-negative index counts from the end, and both directions clamp to
the valid range. -/
def pySliceIdx (n : Nat) (i : ℤ) : ℤ :=
  if i < 0 then max 0 ((n : ℤ) + i) else min i (n : ℤ)

/-- Python slice `xs[i:j]` on a list. -/
def pySliceList {α : Type} (xs : List α) (i j : ℤ) : List α :=
  (xs.take (pySliceIdx xs.length j).toNat).drop (pySliceIdx xs.length i).toNat

/-- builtins.py `_index_double` bound processing, shared by the Array and
String operands: Null bounds default to 0 and to the constant
10000000000000 (the literal the source uses in place of the length);
non-Number bounds raise; fractional bounds raise; a negative bound has
the length added once.  The returned pair feeds a python slice. -/
def sliceBounds (len : Nat) (index_one index_two : RuntimeValue) : Except Err (ℤ × ℤ) :=
  let i1 := if index_one.type = .Null then RuntimeValue.number 0 else index_one
  let i2 := if index_two.type = .Null then RuntimeValue.number 10000000000000 else index_two
  match i1, i2 with
  | .number q1, .number q2 =>
    if pyMod q1 1 ≠ 0 then .error (.exc "index: Non-integers cannot be used on arrays")
    else
      let m1 := pyTrunc q1
      let n1 : ℤ := if m1 < 0 then (len : ℤ) + m1 else m1
      if pyMod q2 1 ≠ 0 then .error (.exc "index: Non-integers cannot be used on arrays")
      else
        let m2 := pyTrunc q2
        let n2 : ℤ := if m2 < 0 then (len : ℤ) + m2 else m2
        .ok (n1, n2)
  | _, _ => .error (.exc "index: Non-numbers cannot be used on arrays")

/-- Stable insertion of a `(key, item)` pair into an already-sorted list:
the new pair goes before the first resident pair whose key does not
compare strictly below it.  Comparator failures propagate, as the python
exception aborts `sorted`. -/
def insert_sorted_pair (x : RuntimeValue × RuntimeValue) :
    List (RuntimeValue × RuntimeValue) → Except Err (List (RuntimeValue × RuntimeValue))
  | [] => .ok [x]
  | y :: ys => do
    let c ← RuntimeValue.compare x.1 y.1
    if c ≤ 0 then .ok (x :: y :: ys)
    else do
      let rest ← insert_sorted_pair x ys
      .ok (y :: rest)

/-- Model of python `sorted(with_key, key=cmp_to_key(cmp))` in sortby:
stable sort of `(key, item)` pairs under `RuntimeValue.compare` on keys.
Processing the input left to right and inserting each pair before the
equal-keyed pairs already placed reproduces the documented stability of
python `sorted`; for the total-preorder comparators that succeed, the
resulting list is the unique stable sort, the same list Timsort returns. -/
def sort_pairs : List (RuntimeValue × RuntimeValue) →
    Except Err (List (RuntimeValue × RuntimeValue))
  | [] => .ok []
  | x :: xs => do
    let s ← sort_pairs xs
    insert_sorted_pair x s

/-- Stable insertion of a value into an already-sorted list under
`RuntimeValue.compare` (the plain `sort` builtin). -/
def insert_sorted_val (x : RuntimeValue) :
    List RuntimeValue → Except Err (List RuntimeValue)
  | [] => .ok [x]
  | y :: ys => do
    let c ← RuntimeValue.compare x y
    if c ≤ 0 then .ok (x :: y :: ys)
    else do
      let rest ← insert_sorted_val x ys
      .ok (y :: rest)

/-- Model of python `sorted(arg, key=cmp_to_key(RuntimeValue.compare))`. -/
def sort_vals : List RuntimeValue → Except Err (List RuntimeValue)
  | [] => .ok []
  | x :: xs => do
    let s ← sort_vals xs
    insert_sorted_val x s

/-- Append an item to the group of `key`, creating the group at the end
on first occurrence (python dict insertion order in groupby). -/
def append_group (key : String) (item : RuntimeValue) :
    List (String × List RuntimeValue) → List (String × List RuntimeValue)
  | [] => [(key, [item])]
  | (k, l) :: rest =>
    if k = key then (k, l ++ [item]) :: rest
    else (k, l) :: append_group key item rest

/-- The scan of the `find` builtin: first item whose mutation is truthy. -/
def find_loop (exec : Exec) (mutation : Expr) (stack : Stack) :
    List RuntimeValue → Res
  | [] => .ok .null
  | item :: rest => do
    let res ← exec mutation (add_runtime_value_to_stack item stack)
    if res.truthy then .ok item else find_loop exec mutation stack rest

/-- builtins.py `_sequence_helper`: strictly increasing index tuples, one
index per bitmask, each chosen among the true positions at or after
`start`. -/
def _sequence_helper : List (List Bool) → Nat → List (List Nat)
  | [], _ => []
  | firstArray :: restArr, start =>
    ((List.range firstArray.length).filter (fun idx => decide (start ≤ idx))).flatMap
      (fun idx =>
        if firstArray.getD idx false then
          if restArr.isEmpty then [[idx]]
          else (_sequence_helper restArr (idx + 1)).map (fun tail => idx :: tail)
        else [])

/-! ### Builtins (builtins.py).  Each builtin receives the unevaluated
argument expressions, the caller stack, and the evaluator callback, and
decides itself which arguments to evaluate and in what order, mirroring
the python function bodies including their arity checks. -/

/-- builtins.py `log` (the `print` is console I/O outside the model; the
value flows through unchanged). -/
def log (arguments : Args) (stack : Stack) (execute : Exec) : Res :=
  match arguments with
  | [e] => do
    let res ← execute e stack
    .ok res
  | _ => .error (.exc "log takes one argument")

/-- builtins.py `reverse`. -/
def reverse (arguments : Args) (stack : Stack) (execute : Exec) : Res :=
  match arguments with
  | [e] => do
    let arg ← execute e stack
    match arg with
    | .array items => .ok (.array items.reverse)
    | _ => .error (.exc "reverse takes an array")
  | _ => .error (.exc "reverse takes one argument")

/-- builtins.py `unary_minus`. -/
def unary_minus (arguments : Args) (stack : Stack) (execute : Exec) : Res :=
  match arguments with
  | [e] => do
    let res ← execute e stack
    match res with
    | .number q => .ok (.number (-q))
    | _ => .error (.exc "unary_minus takes a number")
  | _ => .error (.exc "unary minus takes one argument")

/-- builtins.py `unary_not`: boolean negation of truthiness. -/
def unary_not (arguments : Args) (stack : Stack) (execute : Exec) : Res :=
  match arguments with
  | [e] => do
    let res ← execute e stack
    .ok (.boolean (! res.truthy))
  | _ => .error (.exc "unary not takes one argument")

/-- builtins.py `if_else`: evaluates the condition, then exactly one
branch, chosen by truthiness. -/
def if_else (arguments : Args) (stack : Stack) (execute : Exec) : Res :=
  match arguments with
  | [condE, thenE, elseE] => do
    let condition ← execute condE stack
    if condition.truthy then execute thenE stack else execute elseE stack
  | _ => .error (.exc "if takes three arguments")

/-- builtins.py `add`: operands must share a variant; numbers add,
strings and arrays concatenate. -/
def add (arguments : Args) (stack : Stack) (execute : Exec) : Res :=
  match arguments with
  | [le, re] => do
    let left ← execute le stack
    let right ← execute re stack
    if left.type ≠ right.type then
      .error (.exc "add: operands are not the same type")
    else
      match left, right with
      | .number a, .number b => .ok (.number (pyAdd a b))
      | .string a, .string b => .ok (.string (a ++ b))
      | .array a, .array b => .ok (.array (a ++ b))
      | _, _ => .error (.exc "add: type is not supported")
  | _ => .error (.exc "add takes two arguments")

/-- builtins.py `subtract`. -/
def subtract (arguments : Args) (stack : Stack) (execute : Exec) : Res :=
  match arguments with
  | [le, re] => do
    let left ← execute le stack
    let right ← execute re stack
    match left, right with
    | .number a, .number b => .ok (.number (pySub a b))
    | _, _ => .error (.exc "subtract: operands are not both numbers")
  | _ => .error (.exc "subtract takes two arguments")

/-- builtins.py `multiply`. -/
def multiply (arguments : Args) (stack : Stack) (execute : Exec) : Res :=
  match arguments with
  | [le, re] => do
    let left ← execute le stack
    let right ← execute re stack
    match left, right with
    | .number a, .number b => .ok (.number (pyMul a b))
    | _, _ => .error (.exc "multiply: operands are not both numbers")
  | _ => .error (.exc "multiply takes two arguments")

/-- builtins.py `divide`: python raises `ZeroDivisionError` on a zero
divisor. -/
def divide (arguments : Args) (stack : Stack) (execute : Exec) : Res :=
  match arguments with
  | [le, re] => do
    let left ← execute le stack
    let right ← execute re stack
    match left, right with
    | .number a, .number b =>
      if b = 0 then .error (.zeroDivisionError "float division by zero")
      else .ok (.number (pyDiv a b))
    | _, _ => .error (.exc "divide: operands are not both numbers")
  | _ => .error (.exc "divide takes two arguments")

/-- builtins.py `mod`: python float `%` (sign of the divisor); raises
`ZeroDivisionError` on a zero divisor. -/
def mod (arguments : Args) (stack : Stack) (execute : Exec) : Res :=
  match arguments with
  | [le, re] => do
    let left ← execute le stack
    let right ← execute re stack
    match left, right with
    | .number a, .number b =>
      if b = 0 then .error (.zeroDivisionError "float modulo")
      else .ok (.number (pyMod a b))
    | _, _ => .error (.exc "mod: operands are not both numbers")
  | _ => .error (.exc "mod takes two arguments")

/-- builtins.py `eq`: deep structural equality, as a Boolean value. -/
def eq (arguments : Args) (stack : Stack) (execute : Exec) : Res :=
  match arguments with
  | [le, re] => do
    let left ← execute le stack
    let right ← execute re stack
    .ok (.boolean (RuntimeValue.eq left right))
  | _ => .error (.exc "eq takes two arguments")

/-- builtins.py `neq`. -/
def neq (arguments : Args) (stack : Stack) (execute : Exec) : Res :=
  match arguments with
  | [le, re] => do
    let left ← execute le stack
    let right ← execute re stack
    .ok (.boolean (! RuntimeValue.eq left right))
  | _ => .error (.exc "neq takes two arguments")

/-- builtins.py `and_fn`: both operands are evaluated; the left is
returned if falsy, otherwise the right. -/
def and_fn (arguments : Args) (stack : Stack) (execute : Exec) : Res :=
  match arguments with
  | [le, re] => do
    let left ← execute le stack
    let right ← execute re stack
    if left.truthy then .ok right else .ok left
  | _ => .error (.exc "and takes two arguments")

/-- builtins.py `or_fn`: both operands are evaluated; the left is
returned if truthy, otherwise the right. -/
def or_fn (arguments : Args) (stack : Stack) (execute : Exec) : Res :=
  match arguments with
  | [le, re] => do
    let left ← execute le stack
    let right ← execute re stack
    if left.truthy then .ok left else .ok right
  | _ => .error (.exc "or takes two arguments")

/-- builtins.py `count`. -/
def count (arguments : Args) (stack : Stack) (execute : Exec) : Res :=
  match arguments with
  | [e] => do
    let arg ← execute e stack
    match arg with
    | .array items => .ok (.number ((items.length : ℤ) : ℚ))
    | _ => .error (.exc "count: operand is not an array")
  | _ => .error (.exc "count takes one argument")

/-- builtins.py `keys`. -/
def keys (arguments : Args) (stack : Stack) (execute : Exec) : Res :=
  match arguments with
  | [e] => do
    let arg ← execute e stack
    .ok (.array (arg.keys.map .string))
  | _ => .error (.exc "keys takes one argument")

/-- builtins.py `dot`: the right-hand argument stays unevaluated and must
be a `RefExpression`; its `name` is read literally (no attribute other
than `name` is touched, so the missing `absolute` does not matter here). -/
def dot (arguments : Args) (stack : Stack) (execute : Exec) : Res :=
  match arguments with
  | [le, re] => do
    let left ← execute le stack
    match re with
    | .ref name _ => .ok (left.access name)
    | _ => .error (.exc "dot: rhs is not a ref")
  | _ => .error (.exc "dot takes two arguments")

/-- builtins.py `map` (the python definition shadows the global `map`). -/
def map (arguments : Args) (stack : Stack) (execute : Exec) : Res :=
  match arguments with
  | [mutation, operandE] => do
    let operand ← execute operandE stack
    match operand with
    | .array items => do
      let out ← items.mapM
        (fun item => execute mutation (add_runtime_value_to_stack item stack))
      .ok (.array out)
    | _ => .error (.exc "map: operand is not an array")
  | _ => .error (.exc "map takes two arguments")

/-- builtins.py `reduce`: the accumulator starts at the second argument
(evaluated before the operand); each step evaluates the mutation with the
two-element array `[acc, item]` pushed as focus. -/
def reduce (arguments : Args) (stack : Stack) (execute : Exec) : Res :=
  match arguments with
  | [mutation, initialE, operandE] => do
    let initial ← execute initialE stack
    let operand ← execute operandE stack
    match operand with
    | .array items =>
      items.foldlM
        (fun out item =>
          execute mutation
            (add_runtime_value_to_stack (.array [out, item]) stack))
        initial
    | _ => .error (.exc "reduce: operand is not an array")
  | _ => .error (.exc "reduce takes three arguments")

/-- builtins.py `filter` (shadows the global `filter`). -/
def filter (arguments : Args) (stack : Stack) (execute : Exec) : Res :=
  match arguments with
  | [mutation, operandE] => do
    let operand ← execute operandE stack
    match operand with
    | .array items => do
      let out ← items.foldlM
        (fun out item => do
          let res ← execute mutation (add_runtime_value_to_stack item stack)
          if res.truthy then pure (out ++ [item]) else pure out)
        []
      .ok (.array out)
    | _ => .error (.exc "filter: operand is not an array")
  | _ => .error (.exc "filter takes two arguments")

/-- builtins.py `mapvalues`: per entry, the value is pushed as focus. -/
def mapvalues (arguments : Args) (stack : Stack) (execute : Exec) : Res :=
  match arguments with
  | [mutation, operandE] => do
    let operand ← execute operandE stack
    match operand with
    | .object entries => do
      let out ← entries.foldlM
        (fun out p => do
          let res ← execute mutation (add_runtime_value_to_stack p.2 stack)
          pure (dictSet p.1 res out))
        []
      .ok (.object out)
    | _ => .error (.exc "mapvalues: operand is not an object")
  | _ => .error (.exc "mapvalues takes two arguments")

/-- builtins.py `mapkeys`: per entry, the key is pushed as focus (as a
String) and the mutated key must come back a String. -/
def mapkeys (arguments : Args) (stack : Stack) (execute : Exec) : Res :=
  match arguments with
  | [mutation, operandE] => do
    let operand ← execute operandE stack
    match operand with
    | .object entries => do
      let out ← entries.foldlM
        (fun out p => do
          let res ← execute mutation (add_runtime_value_to_stack (.string p.1) stack)
          match res with
          | .string s => pure (dictSet s p.2 out)
          | _ => .error (.exc "mapkeys: mutated key is not a string"))
        []
      .ok (.object out)
    | _ => .error (.exc "mapkeys: operand is not an object")
  | _ => .error (.exc "mapkeys takes two arguments")

/-- builtins.py `filtervalues`. -/
def filtervalues (arguments : Args) (stack : Stack) (execute : Exec) : Res :=
  match arguments with
  | [mutation, operandE] => do
    let operand ← execute operandE stack
    match operand with
    | .object entries => do
      let out ← entries.foldlM
        (fun out p => do
          let res ← execute mutation (add_runtime_value_to_stack p.2 stack)
          if res.truthy then pure (dictSet p.1 p.2 out) else pure out)
        []
      .ok (.object out)
    | _ => .error (.exc "filtervalues: operand is not an object")
  | _ => .error (.exc "filtervalues takes two arguments")

/-- builtins.py `filterkeys`. -/
def filterkeys (arguments : Args) (stack : Stack) (execute : Exec) : Res :=
  match arguments with
  | [mutation, operandE] => do
    let operand ← execute operandE stack
    match operand with
    | .object entries => do
      let out ← entries.foldlM
        (fun out p => do
          let res ← execute mutation (add_runtime_value_to_stack (.string p.1) stack)
          if res.truthy then pure (dictSet p.1 p.2 out) else pure out)
        []
      .ok (.object out)
    | _ => .error (.exc "filterkeys: operand is not an object")
  | _ => .error (.exc "filterkeys takes two arguments")

/-- builtins.py `find`. -/
def find (arguments : Args) (stack : Stack) (execute : Exec) : Res :=
  match arguments with
  | [mutation, operandE] => do
    let operand ← execute operandE stack
    match operand with
    | .array items => find_loop execute mutation stack items
    | _ => .error (.exc "find: operand is not an array")
  | _ => .error (.exc "find takes two arguments")

/-- builtins.py `apply`: evaluates the target (second argument) and then
the first argument with the target pushed as focus. -/
def apply (arguments : Args) (stack : Stack) (execute : Exec) : Res :=
  match arguments with
  | [fe, te] => do
    let target ← execute te stack
    execute fe (add_runtime_value_to_stack target stack)
  | _ => .error (.exc "apply takes two arguments")

/-- builtins.py `_index_double`: slice of an Array or String. -/
def _index_double (operand index_one index_two : RuntimeValue) : Res :=
  match operand with
  | .array xs =>
    (sliceBounds xs.length index_one index_two).map
      (fun p => .array (pySliceList xs p.1 p.2))
  | .string s =>
    (sliceBounds s.length index_one index_two).map
      (fun p => .string (String.mk (pySliceList s.data p.1 p.2)))
  | _ => .error (.exc "index: operand is not an array or string")

/-- builtins.py `_index_single`: Array and String operands take an
integral Number index that wraps once from the end and yields Null out of
range; every other operand variant is accessed as an object member under
the string rendering of the index. -/
def _index_single (operand index : RuntimeValue) : Res :=
  match operand with
  | .array xs =>
    match index with
    | .number q =>
      if pyMod q 1 ≠ 0 then .error (.exc "index: Non-integers cannot be used on arrays")
      else
        let m0 := pyTrunc q
        let m := if m0 < 0 then (xs.length : ℤ) + m0 else m0
        if m < 0 ∨ m ≥ (xs.length : ℤ) then .ok .null
        else .ok (xs.getD m.toNat .null)
    | _ => .error (.exc "index: Non-numbers cannot be used on arrays")
  | .string s =>
    match index with
    | .number q =>
      if pyMod q 1 ≠ 0 then .error (.exc "index: Non-integers cannot be used on arrays")
      else
        let m0 := pyTrunc q
        let m := if m0 < 0 then (s.length : ℤ) + m0 else m0
        if m < 0 ∨ m ≥ (s.length : ℤ) then .ok .null
        else .ok (.string (String.mk [s.data.getD m.toNat ' ']))
    | _ => .error (.exc "index: Non-numbers cannot be used on arrays")
  | _ => (index.to_string).map (fun s => operand.access s)

/-- builtins.py `index`: dispatch on arity; python evaluates the operand
argument before the index arguments in both forms. -/
def index (arguments : Args) (stack : Stack) (execute : Exec) : Res :=
  match arguments with
  | [a0, a1] => do
    let operand ← execute a1 stack
    let i ← execute a0 stack
    _index_single operand i
  | [a0, a1, a2] => do
    let operand ← execute a2 stack
    let i1 ← execute a0 stack
    let i2 ← execute a1 stack
    _index_double operand i1 i2
  | _ => .error (.exc "index takes two to three arguments")

/-- builtins.py `string`. -/
def string (arguments : Args) (stack : Stack) (execute : Exec) : Res :=
  match arguments with
  | [e] => do
    let arg ← execute e stack
    let s ← arg.to_string
    .ok (.string s)
  | _ => .error (.exc "string takes one argument")

/-- builtins.py `float` (shadows the global `float`). -/
def float (arguments : Args) (stack : Stack) (execute : Exec) : Res :=
  match arguments with
  | [e] => do
    let arg ← execute e stack
    let q ← arg.to_float
    .ok (.number q)
  | _ => .error (.exc "float takes one argument")

/-- builtins.py `regex`: compiles a pattern with the supported `i m s`
flags; `g` is stored as the `global` modifier only. -/
def regex (arguments : Args) (stack : Stack) (execute : Exec) : Res := do
  let patFlags ←
    match arguments with
    | [pe] => do
      let p ← execute pe stack
      pure (p, RuntimeValue.string "")
    | [pe, fe] => do
      let p ← execute pe stack
      let f ← execute fe stack
      pure (p, f)
    | _ => .error (.exc "regex takes one to two arguments")
  match patFlags with
  | (.string pat, .string flags) =>
    .ok (.regex pat (flags.data.contains 'i') (flags.data.contains 'm')
      (flags.data.contains 's') (flags.data.contains 'g'))
  | (.string _, _) => .error (.exc "regex: flags are not a string")
  | _ => .error (.exc "regex: pattern is not a string")

/-- builtins.py `lt`. -/
def lt (arguments : Args) (stack : Stack) (execute : Exec) : Res :=
  match arguments with
  | [le, re] => do
    let l ← execute le stack
    let r ← execute re stack
    let c ← RuntimeValue.compare l r
    .ok (.boolean (decide (c < 0)))
  | _ => .error (.exc "lt takes two arguments")

/-- builtins.py `lte`. -/
def lte (arguments : Args) (stack : Stack) (execute : Exec) : Res :=
  match arguments with
  | [le, re] => do
    let l ← execute le stack
    let r ← execute re stack
    let c ← RuntimeValue.compare l r
    .ok (.boolean (decide (c ≤ 0)))
  | _ => .error (.exc "lte takes two arguments")

/-- builtins.py `gt`. -/
def gt (arguments : Args) (stack : Stack) (execute : Exec) : Res :=
  match arguments with
  | [le, re] => do
    let l ← execute le stack
    let r ← execute re stack
    let c ← RuntimeValue.compare l r
    .ok (.boolean (decide (0 < c)))
  | _ => .error (.exc "gt takes two arguments")

/-- builtins.py `gte`. -/
def gte (arguments : Args) (stack : Stack) (execute : Exec) : Res :=
  match arguments with
  | [le, re] => do
    let l ← execute le stack
    let r ← execute re stack
    let c ← RuntimeValue.compare l r
    .ok (.boolean (decide (0 ≤ c)))
  | _ => .error (.exc "gte takes two arguments")

/-- builtins.py `values`. -/
def values (arguments : Args) (stack : Stack) (execute : Exec) : Res :=
  match arguments with
  | [e] => do
    let target ← execute e stack
    .ok (.array (target.keys.map (fun k => target.access k)))
  | _ => .error (.exc "values takes one argument")

/-- builtins.py `groupby`: groups in first-occurrence order under the
string rendering of the key. -/
def groupby (arguments : Args) (stack : Stack) (execute : Exec) : Res :=
  match arguments with
  | [mutation, targetE] => do
    let target ← execute targetE stack
    match target with
    | .array items => do
      let groups ← items.foldlM
        (fun groups item => do
          let kv ← execute mutation (add_runtime_value_to_stack item stack)
          let ks ← kv.to_string
          pure (append_group ks item groups))
        []
      .ok (.object (groups.map (fun p => (p.1, RuntimeValue.array p.2))))
    | _ => .error (.exc "groupby: operand is not an array")
  | _ => .error (.exc "groupby takes two arguments")

/-- builtins.py `withindices`. -/
def withindices (arguments : Args) (stack : Stack) (execute : Exec) : Res :=
  match arguments with
  | [e] => do
    let target ← execute e stack
    match target with
    | .array items =>
      .ok (.array (items.enum.map
        (fun p => .array [.number ((p.1 : ℤ) : ℚ), p.2])))
    | _ => .error (.exc "withindices: operand is not an array")
  | _ => .error (.exc "withindices takes one argument")

/-- builtins.py `entries`. -/
def entries (arguments : Args) (stack : Stack) (execute : Exec) : Res :=
  match arguments with
  | [e] => do
    let target ← execute e stack
    .ok (.array (target.keys.map
      (fun k => .array [.string k, target.access k])))
  | _ => .error (.exc "entries takes one argument")

/-- builtins.py `fromentries`: each entry must be an array; missing
slots read as Null; the key is the string rendering of the first slot. -/
def fromentries (arguments : Args) (stack : Stack) (execute : Exec) : Res :=
  match arguments with
  | [e] => do
    let target ← execute e stack
    match target with
    | .array items => do
      let res ← items.foldlM
        (fun res entry =>
          match entry with
          | .array l => do
            let first := l.getD 0 .null
            let second := l.getD 1 .null
            let ks ← first.to_string
            pure (dictSet ks second res)
          | _ => .error (.exc "fromentries: entry is not an array"))
        []
      .ok (.object res)
    | _ => .error (.exc "fromentries: operand is not an array")
  | _ => .error (.exc "fromentries takes one argument")

/-- builtins.py `match` (named `match_fn` here; `match` is reserved in
Lean): the target (second argument) is evaluated before the pattern.  A
Regex pattern uses python `re.match`, anchored at the start; a String
pattern is compared for equality with the target. -/
def match_fn (arguments : Args) (stack : Stack) (execute : Exec) : Res :=
  match arguments with
  | [patE, targetE] => do
    let target ← execute targetE stack
    let pattern ← execute patE stack
    match pattern with
    | .regex pat fI _ _ _ =>
      match target with
      | .string t => .ok (.boolean (reMatchAtStart pat fI t))
      | _ => .error (.typeError "expected string or bytes-like object")
    | .string _ => .ok (.boolean (RuntimeValue.eq target pattern))
    | _ => .error (.exc "match: pattern is not a string or regex")
  | _ => .error (.exc "match takes two arguments")

/-- builtins.py `match_operator`: reverses the argument list and applies
`match`. -/
def match_operator (arguments : Args) (stack : Stack) (execute : Exec) : Res :=
  if arguments.length ≠ 2 then .error (.exc "match takes two arguments")
  else match_fn arguments.reverse stack execute

/-- builtins.py `replace`: the target (third argument) is evaluated
first, then the pattern, then the replacement.  A Regex pattern with the
`global` modifier replaces every occurrence, otherwise the first; a
String pattern replaces the first occurrence.  Pattern occurrence is the
literal model used throughout (metacharacters are not embedded). -/
def replace (arguments : Args) (stack : Stack) (execute : Exec) : Res :=
  match arguments with
  | [patE, replE, targetE] => do
    let target ← execute targetE stack
    let pattern ← execute patE stack
    let replacement ← execute replE stack
    match pattern with
    | .regex p _ _ _ g =>
      match replacement, target with
      | .string r, .string t =>
        if g then
          .ok (.string (String.mk (replaceAllChars (t.length + 1) p.data r.data t.data)))
        else
          .ok (.string (String.mk (replaceFirstChars p.data r.data t.data)))
      | _, _ => .error (.typeError "expected string or bytes-like object")
    | .string p =>
      match replacement, target with
      | .string r, .string t =>
        .ok (.string (String.mk (replaceFirstChars p.data r.data t.data)))
      | _, _ => .error (.attributeError "value has no attribute replace")
    | _ => .error (.exc "replace: pattern is not a string or regex")
  | _ => .error (.exc "replace takes three arguments")

/-- builtins.py `split`: a String delimiter splits literally (the empty
delimiter explodes into characters); a Regex delimiter splits under the
literal pattern model. -/
def split (arguments : Args) (stack : Stack) (execute : Exec) : Res :=
  match arguments with
  | [delimE, targetE] => do
    let target ← execute targetE stack
    match target with
    | .string t => do
      let delimiter ← execute delimE stack
      match delimiter with
      | .string sep =>
        if sep = "" then
          .ok (.array (t.data.map (fun c => .string (String.mk [c]))))
        else
          .ok (.array ((splitChars sep.data t.data).map
            (fun l => .string (String.mk l))))
      | .regex p _ _ _ _ =>
        .ok (.array ((splitChars p.data t.data).map
          (fun l => .string (String.mk l))))
      | _ => .error (.exc "split: delimiter is not a string or regex")
    | _ => .error (.exc "split: target is not a string")
  | _ => .error (.exc "split takes two arguments")

/-- builtins.py: the second `stringjoin` definition in the module (the one
the `builtins` dict references; the earlier one-argument definition is
shadowed). -/
def stringjoin (arguments : Args) (stack : Stack) (execute : Exec) : Res :=
  match arguments with
  | [delimE, targetE] => do
    let target ← execute targetE stack
    match target with
    | .array items => do
      let delimiter ← execute delimE stack
      match delimiter with
      | .string d => do
        let arr ← items.mapM RuntimeValue.to_string
        .ok (.string (String.intercalate d arr))
      | _ => .error (.exc "stringjoin: delimiter is not a string")
    | _ => .error (.exc "stringjoin: target is not an array")
  | _ => .error (.exc "stringjoin takes two arguments")

/-- builtins.py `sort`. -/
def sort (arguments : Args) (stack : Stack) (execute : Exec) : Res :=
  match arguments with
  | [e] => do
    let arg ← execute e stack
    match arg with
    | .array items => do
      let sorted ← sort_vals items
      .ok (.array sorted)
    | _ => .error (.exc "sort: operand is not an array")
  | _ => .error (.exc "sort takes one argument")

/-- builtins.py `sortby`: evaluates the target, computes each item key by
evaluating the first argument with the item pushed as focus, stably
sorts the `(key, item)` pairs by key, and returns the items. -/
def sortby (arguments : Args) (stack : Stack) (execute : Exec) : Res :=
  match arguments with
  | [keyE, targetE] => do
    let target ← execute targetE stack
    match target with
    | .array items => do
      let withKey ← items.mapM
        (fun item => do
          let key ← execute keyE (add_runtime_value_to_stack item stack)
          pure (key, item))
      let postSort ← sort_pairs withKey
      .ok (.array (postSort.map Prod.snd))
    | _ => .error (.exc "sortby: target is not an array")
  | _ => .error (.exc "sortby takes two arguments")

/-- builtins.py `summarize`: checks the operand is an array of numbers.
The statistics themselves (`mean`, `median`, sample `variance`, `stdev`)
come from the python `statistics` module; `stdev` is an irrational square
root, so the payload computation is a model boundary no claim exercises. -/
def summarize (arguments : Args) (stack : Stack) (execute : Exec) : Res :=
  match arguments with
  | [e] => do
    let target ← execute e stack
    match target with
    | .array items =>
      if items.all (fun v => v.type = .Number) then
        .error (.exc "model boundary: summarize statistics are not embedded")
      else
        .error (.exc "summarize: inner value is not a number")
    | _ => .error (.exc "summarize: operand is not an array")
  | _ => .error (.exc "summarize takes one argument")

/-- builtins.py `sequence`: evaluates the last argument as the target
array, builds one truthiness bitmask per predicate, and materializes the
strictly increasing index tuples as arrays of items. -/
def sequence (arguments : Args) (stack : Stack) (execute : Exec) : Res :=
  if arguments.length < 2 then .error (.exc "sequence takes at least two arguments")
  else do
    let targetE := arguments.getLastD (.value .null)
    let predicates := arguments.dropLast
    let target ← execute targetE stack
    match target with
    | .array items => do
      let bitmasks ← predicates.mapM
        (fun predicate => items.mapM
          (fun item => do
            let v ← execute predicate (add_runtime_value_to_stack item stack)
            pure v.truthy))
      let indicesMap := _sequence_helper bitmasks 0
      .ok (.array (indicesMap.map
        (fun indices => .array (indices.map (fun idx => items.getD idx .null)))))
    | _ => .error (.exc "sequence: target is not an array")

/-! ### The evaluator (execute.py).  Python recursion is unbounded; the
model threads explicit fuel, decremented at every `execute` entry, so the
recursion is well-founded.  Builtins receive the evaluator callback at the
current fuel, mirroring the python higher-order signature. -/

/-- Dispatch from a function tag to the builtin body (the python function
object stored in the `builtins` dict). -/
def applyBuiltin (f : BuiltinFn) (arguments : Args) (stack : Stack) (exec : Exec) : Res :=
  match f with
  | .dot => dot arguments stack exec
  | .unary_minus => unary_minus arguments stack exec
  | .unary_not => unary_not arguments stack exec
  | .add => add arguments stack exec
  | .subtract => subtract arguments stack exec
  | .multiply => multiply arguments stack exec
  | .divide => divide arguments stack exec
  | .mod => mod arguments stack exec
  | .eq => eq arguments stack exec
  | .neq => neq arguments stack exec
  | .gt => gt arguments stack exec
  | .gte => gte arguments stack exec
  | .lt => lt arguments stack exec
  | .lte => lte arguments stack exec
  | .and_fn => and_fn arguments stack exec
  | .or_fn => or_fn arguments stack exec
  | .match_operator => match_operator arguments stack exec
  | .apply => apply arguments stack exec
  | .count => count arguments stack exec
  | .keys => keys arguments stack exec
  | .entries => entries arguments stack exec
  | .fromentries => fromentries arguments stack exec
  | .matchB => match_fn arguments stack exec
  | .split => split arguments stack exec
  | .values => values arguments stack exec
  | .groupby => groupby arguments stack exec
  | .floatB => float arguments stack exec
  | .mapB => map arguments stack exec
  | .filterB => filter arguments stack exec
  | .reduce => reduce arguments stack exec
  | .find => find arguments stack exec
  | .index => index arguments stack exec
  | .stringB => string arguments stack exec
  | .sort => sort arguments stack exec
  | .sortby => sortby arguments stack exec
  | .mapvalues => mapvalues arguments stack exec
  | .mapkeys => mapkeys arguments stack exec
  | .filtervalues => filtervalues arguments stack exec
  | .filterkeys => filterkeys arguments stack exec
  | .if_else => if_else arguments stack exec
  | .reverse => reverse arguments stack exec
  | .regex => regex arguments stack exec
  | .log => log arguments stack exec
  | .stringjoin => stringjoin arguments stack exec
  | .withindices => withindices arguments stack exec
  | .replace => replace arguments stack exec
  | .summarize => summarize arguments stack exec
  | .sequence => sequence arguments stack exec

/-- execute.py `execute_fncall`: evaluate the head; a non-Function head
raises `MistQLTypeError`; otherwise the stored function definition is
invoked on the unevaluated arguments, the stack and the evaluator. -/
def execute_fncall (exec : Exec) (fn : Expr) (arguments : List Expr) (stack : Stack) : Res := do
  let fnv ← exec fn stack
  match fnv with
  | .function b => applyBuiltin b arguments stack exec
  | _ => .error (.typeError "Tried to call a non-function")

/-- execute.py `execute_pipe`, the loop over the remaining stages: each
stage must be an `FnExpression` (anything else raises
`OpenAnIssueIfYouGetThisError`); the stage re-executes as the same call
with the previous value appended as an extra `ValueExpression` argument,
against the original stack extended by the previous value as new focus. -/
def execute_pipe_loop (exec : Exec) (data : RuntimeValue) (stages : List Expr)
    (stack : Stack) : Res :=
  match stages with
  | [] => .ok data
  | stage :: rest =>
    let newStack := add_runtime_value_to_stack data stack
    match stage with
    | .fncall h args => do
      let d2 ← exec (.fncall h (args ++ [.value data])) newStack
      execute_pipe_loop exec d2 rest stack
    | _ => .error (.openAnIssue "Pipe stage is not a function!!")

/-- execute.py `execute`: dispatch on the node class, with fuel standing
in for the unbounded python recursion (decremented at each entry; every
inner evaluation, including those builtins perform through the callback,
runs at the decremented fuel).  A reference node is evaluated by reading
`ast.name` and `ast.absolute` and calling `find_in_stack`; since no
construction site assigns `absolute`, python raises `AttributeError`
whenever the attribute is absent, which the model renders through the
`Option.none` state of the field. -/
def execute : Nat → Expr → Stack → Res
  | 0, _, _ => .error (.exc "model: recursion fuel exhausted")
  | fuel + 1, ast, stack =>
    match ast with
    | .value v => .ok v
    | .ref name abs =>
      match abs with
      | some b => find_in_stack stack name b
      | Option.none =>
        .error (.attributeError "RefExpression object has no attribute absolute")
    | .fncall fn args => execute_fncall (fun e s => execute fuel e s) fn args stack
    | .array items =>
      (items.mapM (fun e => execute fuel e stack)).map .array
    | .object entries =>
      (entries.mapM (fun p => (execute fuel p.2 stack).map (fun v => (p.1, v)))).map .object
    | .pipe stages =>
      match stages with
      | [] => .error (.exc "IndexError: list index out of range")
      | s0 :: rest => do
        let d ← execute fuel s0 stack
        execute_pipe_loop (fun e s => execute fuel e s) d rest stack

/-! ### Claim theorems -/

/-- Reduction of monadic bind on a success, used to unfold embedded
python statement sequences. -/
@[simp] theorem mq_bind_ok {ε α β : Type} (a : α) (f : α → Except ε β) :
    (Except.ok a : Except ε α) >>= f = f a := rfl

/-- Reduction of monadic bind on an error (python exception propagation). -/
@[simp] theorem mq_bind_error {ε α β : Type} (e : ε) (f : α → Except ε β) :
    (Except.error e : Except ε α) >>= f = Except.error e := rfl

/-- Reduction of `Except.map` on a success. -/
@[simp] theorem mq_map_ok {ε α β : Type} (a : α) (f : α → β) :
    Except.map f (Except.ok a : Except ε α) = Except.ok (f a) := rfl

/-- Reduction of `Except.map` on an error. -/
@[simp] theorem mq_map_error {ε α β : Type} (e : ε) (f : α → β) :
    Except.map f (Except.error e : Except ε α) = Except.error e := rfl

/-- Reduction of explicit `Except.bind` on a success. -/
@[simp] theorem mq_bindE_ok {ε α β : Type} (a : α) (f : α → Except ε β) :
    (Except.ok a : Except ε α).bind f = f a := rfl

/-- Reduction of explicit `Except.bind` on an error. -/
@[simp] theorem mq_bindE_error {ε α β : Type} (e : ε) (f : α → Except ε β) :
    (Except.error e : Except ε α).bind f = Except.error e := rfl

/-- C5: the claim states that `sum` is a registered built-in available
under the name `sum` in the root frame.  In the code the `builtins`
registration dict has no `sum` key at all, so the name cannot resolve in
the root frame built by `build_initial_stack` (shown here with no
extras): any `sum xs` query fails with a reference error instead of
summing.  The spec describes `sum` (Numbers only) as present; the code
omits the registration. -/
theorem c5_sum_not_registered :
    List.lookup "sum" builtins = Option.none ∧
    (∀ data : RuntimeValue,
      find_in_stack (build_initial_stack data builtins []) "sum" true =
        .error (.referenceError "Could not find sum in stack")) :=
  ⟨rfl, fun _ => rfl⟩

/-- C2 (amended): `a || b` evaluates both operands and returns the left
value if truthy, else the right value; `a && b` evaluates both operands
and returns the left value if falsy, else the right value.  Because the
right operand is always evaluated first-class (no short-circuit in the
code), an error raised while evaluating `b` propagates even when `a`
already determines the result. -/
theorem c2_and_or_evaluate_both :
    (∀ (exec : Exec) (a b : Expr) (stack : Stack) (va vb : RuntimeValue),
      exec a stack = .ok va → exec b stack = .ok vb →
      or_fn [a, b] stack exec = .ok (if va.truthy then va else vb) ∧
      and_fn [a, b] stack exec = .ok (if va.truthy then vb else va)) ∧
    (∀ (exec : Exec) (a b : Expr) (stack : Stack) (va : RuntimeValue) (e : Err),
      exec a stack = .ok va → exec b stack = .error e →
      or_fn [a, b] stack exec = .error e ∧
      and_fn [a, b] stack exec = .error e) := by
  constructor
  · intro exec a b stack va vb ha hb
    constructor <;> simp [or_fn, and_fn, ha, hb] <;>
      by_cases hv : va.truthy <;> simp [hv]
  · intro exec a b stack va e ha hb
    constructor <;> simp [or_fn, and_fn, ha, hb]

/-- Witness for C2 at concrete inputs: `true || 0` returns the left
value, and an erroring right operand (calling a non-function) surfaces
its error through both operators. -/
theorem c2_and_or_evaluate_both_witness :
    (or_fn [.value (.boolean true), .value (.number 0)] []
        (fun e s => execute 2 e s) =
      .ok (if (RuntimeValue.boolean true).truthy then .boolean true else .number 0)) ∧
    (or_fn [.value (.boolean true), .fncall (.value (.number 1)) []] []
        (fun e s => execute 2 e s) =
      .error (.typeError "Tried to call a non-function")) :=
  ⟨(c2_and_or_evaluate_both.1 _ _ _ _ _ _ rfl rfl).1,
   (c2_and_or_evaluate_both.2 _ _ _ _ _ _ rfl rfl).1⟩

/-- C2 counterexample: with `a` evaluating to a truthy value, the claim
says `a || b` yields the value of `a` and any error of `b` does not
occur; in the code `or_fn` evaluates `b` unconditionally, so `true || f`
with `f` a call on a non-function raises that call error instead of
returning the truthy left value.  Mirror shown for `&&` with a falsy
left operand. -/
theorem c2_short_circuit_counterexample :
    execute 2 (.value (.boolean true)) [] = .ok (.boolean true) ∧
    (RuntimeValue.boolean true).truthy = true ∧
    or_fn [.value (.boolean true), .fncall (.value (.number 1)) []] []
        (fun e s => execute 2 e s) =
      .error (.typeError "Tried to call a non-function") ∧
    execute 2 (.value (.boolean false)) [] = .ok (.boolean false) ∧
    (RuntimeValue.boolean false).truthy = false ∧
    and_fn [.value (.boolean false), .fncall (.value (.number 1)) []] []
        (fun e s => execute 2 e s) =
      .error (.typeError "Tried to call a non-function") :=
  ⟨rfl, rfl, rfl, rfl, rfl, rfl⟩

/-- C3: pipe evaluation.  The first stage evaluates in the incoming
stack; every subsequent stage must be an `FnExpression` (a non-Fncall
stage raises the internal `OpenAnIssueIfYouGetThisError`), and evaluates
as the same call with the previous value appended as an extra last
`Value` argument, in the stack extended by pushing the previous value as
the new focus.  In particular the two-stage pipe `x | f a b` equals
evaluating `f a b x` with `x` pushed as focus `@`. -/
theorem c3_pipe_desugaring :
    (∀ (fuel : Nat) (s0 h : Expr) (A rest : List Expr) (stack : Stack),
      execute (fuel + 1) (.pipe (s0 :: .fncall h A :: rest)) stack =
        (execute fuel s0 stack).bind (fun v =>
          (execute fuel (.fncall h (A ++ [.value v]))
              (add_runtime_value_to_stack v stack)).bind
            (fun v2 => execute_pipe_loop (fun e s => execute fuel e s) v2 rest stack))) ∧
    (∀ (fuel : Nat) (s0 st : Expr) (rest : List Expr) (stack : Stack),
      st.isFnExpression = false →
      execute (fuel + 1) (.pipe (s0 :: st :: rest)) stack =
        (execute fuel s0 stack).bind (fun _ =>
          .error (.openAnIssue "Pipe stage is not a function!!"))) ∧
    (∀ (fuel : Nat) (s0 h : Expr) (A : List Expr) (stack : Stack),
      execute (fuel + 1) (.pipe [s0, .fncall h A]) stack =
        (execute fuel s0 stack).bind (fun x =>
          execute fuel (.fncall h (A ++ [.value x]))
            (add_runtime_value_to_stack x stack))) := by
  refine ⟨?_, ?_, ?_⟩
  · intro fuel s0 h A rest stack
    show (execute fuel s0 stack).bind _ = _
    cases hx : execute fuel s0 stack with
    | error e => rfl
    | ok v =>
      show execute_pipe_loop _ v _ stack = _
      cases hy : execute fuel (.fncall h (A ++ [.value v]))
          (add_runtime_value_to_stack v stack) with
      | error e => simp [execute_pipe_loop, hy]
      | ok v2 => simp [execute_pipe_loop, hy]
  · intro fuel s0 st rest stack hst
    show (execute fuel s0 stack).bind _ = _
    cases hx : execute fuel s0 stack with
    | error e => rfl
    | ok v =>
      show execute_pipe_loop _ v _ stack = _
      cases st <;> simp_all [execute_pipe_loop, Expr.isFnExpression]
  · intro fuel s0 h A stack
    show (execute fuel s0 stack).bind _ = _
    cases hx : execute fuel s0 stack with
    | error e => rfl
    | ok v =>
      show execute_pipe_loop _ v _ stack = _
      cases hy : execute fuel (.fncall h (A ++ [.value v]))
          (add_runtime_value_to_stack v stack) with
      | error e => simp [execute_pipe_loop, hy]
      | ok v2 => simp [execute_pipe_loop, hy]

/-- Witness for C3 at concrete inputs: `3 | count` (count of a
non-array errors, showing the appended-argument form is what runs), a
non-Fncall second stage raising the internal error, and the two-stage
equation on a concrete call. -/
theorem c3_pipe_desugaring_witness :
    (execute 2 (.pipe [.value (.number 3), .fncall (.value (.function .count)) [], .fncall (.value (.function .count)) []]) [] =
      (execute 1 (.value (.number 3)) []).bind (fun v =>
        (execute 1 (.fncall (.value (.function .count)) [.value v])
            (add_runtime_value_to_stack v [])).bind
          (fun v2 => execute_pipe_loop (fun e s => execute 1 e s) v2
            [.fncall (.value (.function .count)) []] []))) ∧
    ((Expr.value .null).isFnExpression = false) ∧
    (execute 2 (.pipe [.value (.number 3), .value .null]) [] =
      (execute 1 (.value (.number 3)) []).bind (fun _ =>
        .error (.openAnIssue "Pipe stage is not a function!!"))) ∧
    (execute 2 (.pipe [.value (.number 3), .fncall (.value (.function .count)) []]) [] =
      (execute 1 (.value (.number 3)) []).bind (fun x =>
        execute 1 (.fncall (.value (.function .count)) [.value x])
          (add_runtime_value_to_stack x []))) :=
  ⟨c3_pipe_desugaring.1 1 _ _ [] _ [],
   rfl,
   c3_pipe_desugaring.2.1 1 _ _ _ [] rfl,
   c3_pipe_desugaring.2.2 1 _ _ [] []⟩

/-- C4 (amended): for `match pat target` with a String target, a Regex
pattern matches only when it matches at the start of the target (the
code uses python `re.match`, which anchors at position 0 and never
scans ahead); a String pattern is compared for structural equality with
the target (not searched for as a substring); and the infix `a =~ b`
(`match_operator`) evaluates exactly as `match b a`. -/
theorem c4_match_anchored_and_equality :
    (∀ (exec : Exec) (patE targetE : Expr) (stack : Stack)
        (pat : String) (fI fM fS g : Bool) (t : String),
      exec targetE stack = .ok (.string t) →
      exec patE stack = .ok (.regex pat fI fM fS g) →
      match_fn [patE, targetE] stack exec = .ok (.boolean (reMatchAtStart pat fI t))) ∧
    (∀ (exec : Exec) (patE targetE : Expr) (stack : Stack)
        (p : String) (target : RuntimeValue),
      exec targetE stack = .ok target →
      exec patE stack = .ok (.string p) →
      match_fn [patE, targetE] stack exec =
        .ok (.boolean (RuntimeValue.eq target (.string p)))) ∧
    (∀ (exec : Exec) (a b : Expr) (stack : Stack),
      match_operator [a, b] stack exec = match_fn [b, a] stack exec) := by
  refine ⟨?_, ?_, ?_⟩
  · intro exec patE targetE stack pat fI fM fS g t ht hp
    simp [match_fn, ht, hp]
  · intro exec patE targetE stack p target ht hp
    simp [match_fn, ht, hp]
  · intro exec a b stack
    rfl

/-- Witness for C4 at concrete inputs: a regex pattern `a` against
target `ab` (an anchored match at position 0 succeeds), a string
pattern compared by equality, and the operator argument swap. -/
theorem c4_match_anchored_and_equality_witness :
    (match_fn [.value (.regex "a" false false false false), .value (.string "ab")] []
        (fun e s => execute 1 e s) =
      .ok (.boolean (reMatchAtStart "a" false "ab"))) ∧
    (match_fn [.value (.string "ab"), .value (.string "ab")] []
        (fun e s => execute 1 e s) =
      .ok (.boolean (RuntimeValue.eq (.string "ab") (.string "ab")))) ∧
    (match_operator [.value (.string "ab"), .value (.string "a")] []
        (fun e s => execute 1 e s) =
      match_fn [.value (.string "a"), .value (.string "ab")] []
        (fun e s => execute 1 e s)) :=
  ⟨c4_match_anchored_and_equality.1 _ _ _ _ _ _ _ _ _ _ rfl rfl,
   c4_match_anchored_and_equality.2.1 _ _ _ _ _ _ rfl rfl,
   c4_match_anchored_and_equality.2.2 _ _ _ _⟩

/-- C4 counterexample: the claim says a Regex pattern is truthy when it
matches anywhere (so regex `b` should match target `ab` at position 1)
and a String pattern is treated as a literal pattern occurring anywhere
(so string `a` should match target `ab` at position 0); the code returns
false in both cases — `re.match` is anchored at the start, and the
string branch tests full equality.  The last two conjuncts exhibit the
occurrences the claim promises: `ab` splits as `a` then `b`. -/
theorem c4_match_counterexample :
    match_fn [.value (.regex "b" false false false false), .value (.string "ab")] []
        (fun e s => execute 1 e s) = .ok (.boolean false) ∧
    match_fn [.value (.string "a"), .value (.string "ab")] []
        (fun e s => execute 1 e s) = .ok (.boolean false) ∧
    ("ab").data = ['a'] ++ ['b'] ∧
    charsPrefix ("b").data ['b'] = true ∧
    charsPrefix ("a").data ("ab").data = true :=
  ⟨rfl, rfl, by decide, by decide, by decide⟩

/-- C10 (amended): in the 2-argument `index i x` with `x` neither Array
nor String, the code converts `i` to its string rendering and performs
an object member access: the member when `x` is an Object holding the
key, Null in every other success case — including Boolean and Number
operands, which raise no type error, and `index 1 obj`, which reads the
key rendered as the text `1`.  The conversion is total only on the
JSON-renderable index variants: a Function or Regex index raises a
`ValueError` from `to_json` — the one correction to the claim, which
asserted the conversion for an index of any variant. -/
theorem c10_index_single_stringifies :
    (∀ (x i : RuntimeValue) (s : String),
      x.type ≠ .Array → x.type ≠ .String →
      i.to_string = .ok s →
      _index_single x i = .ok (x.access s)) ∧
    (∀ (es : List (String × RuntimeValue)) (i : RuntimeValue) (s : String),
      i.to_string = .ok s →
      _index_single (.object es) i = .ok ((lookupEntry s es).getD .null)) ∧
    (∀ es : List (String × RuntimeValue),
      _index_single (.object es) (.number 1) = .ok ((lookupEntry "1" es).getD .null)) ∧
    (∀ (b : Bool) (q : ℚ), _index_single (.boolean b) (.number q) = .ok .null) ∧
    (∀ q q2 : ℚ, _index_single (.number q2) (.number q) = .ok .null) := by
  refine ⟨?_, ?_, ?_, ?_, ?_⟩
  · intro x i s hxa hxs hi
    cases x <;> simp_all [_index_single, RuntimeValue.type]
  · intro es i s hi
    simp [_index_single, hi, RuntimeValue.access]
  · intro es
    have h1 : (RuntimeValue.number 1).to_string = .ok "1" := rfl
    simp [_index_single, h1, RuntimeValue.access]
  · intro b q
    simp [_index_single, RuntimeValue.to_string, RuntimeValue.access]
  · intro q q2
    simp [_index_single, RuntimeValue.to_string, RuntimeValue.access]

/-- Witness for C10 at concrete inputs: a Boolean operand yields Null
under the stringified lookup, an Object operand indexed by the Number 1
returns the member stored under the key rendered `1`, and a Number
operand raises no error. -/
theorem c10_index_single_stringifies_witness :
    ((RuntimeValue.null).type ≠ RuntimeValueType.Array ∧
      (RuntimeValue.null).type ≠ RuntimeValueType.String ∧
      (RuntimeValue.boolean true).to_string = .ok "true" ∧
      _index_single .null (.boolean true) = .ok ((RuntimeValue.null).access "true")) ∧
    _index_single (.object [("1", .number 7)]) (.number 1) =
      .ok ((lookupEntry "1" [("1", RuntimeValue.number 7)]).getD .null) ∧
    _index_single (.boolean true) (.number 3) = .ok .null :=
  ⟨⟨by decide, by decide, rfl,
    c10_index_single_stringifies.1 .null (.boolean true) "true" (by decide) (by decide) rfl⟩,
   c10_index_single_stringifies.2.2.1 [("1", .number 7)],
   c10_index_single_stringifies.2.2.2.1 true 3⟩

/-- C10 counterexample: the claim quantifies the stringified lookup over
an index of any variant and promises a Null (or member) result; a
Function index makes `to_string` fall through to `to_json`, which
raises `ValueError`, so `index f x` on a Boolean operand errors instead
of returning Null. -/
theorem c10_function_index_counterexample :
    _index_single (.boolean true) (.function .count) =
      .error (.valueError "Cannot convert MistQL value to JSON: function") ∧
    _index_single (.boolean true) (.function .count) ≠ .ok .null :=
  ⟨rfl, fun h => Except.noConfusion h⟩

/-- The floor model agrees with the mathematical floor on rationals. -/
theorem pyFloor_eq_floor (q : ℚ) : pyFloor q = ⌊q⌋ := by
  rw [pyFloor, Rat.floor_def, Int.fdiv_eq_ediv _ (Int.ofNat_nonneg q.den)]

/-- Dividing by one is the identity. -/
theorem pyDiv_one (q : ℚ) : pyDiv q 1 = q := by
  simp [pyDiv, Rat.num_divInt_den]

/-- The python integrality test `q % 1 != 0` of builtins.py holds
exactly on the non-integral rationals (denominator above 1). -/
theorem pyMod_one_eq_zero_iff (q : ℚ) : pyMod q 1 = 0 ↔ q.den = 1 := by
  rw [pyMod, pyDiv_one, pyFloor_eq_floor, pySub_eq, pyMul_eq, one_mul, sub_eq_zero]
  constructor
  · intro h
    rw [h]
    exact Rat.den_intCast _
  · intro h
    have hq : q = (q.num : ℚ) := by
      have hnum := Rat.num_div_den q
      rw [h] at hnum
      simpa using hnum.symm
    rw [hq, Int.floor_intCast]

/-- Truncation of an integer-valued rational is its numerator. -/
theorem pyTrunc_intCast (n : ℤ) : pyTrunc ((n : ℤ) : ℚ) = n := by
  simp [pyTrunc, Rat.num_intCast, Rat.den_intCast]

/-- C6: the 2-argument `index i x`.  On an Array or String operand with
a Number index, a non-integral index raises (a plain uncaught exception,
the runtime-error class of the taxonomy); an integral index wraps once
from the end when negative; the wrapped index returns the element or
character in range and Null out of range.  On an Object operand with a
String index, the result is the member stored under the key, Null when
missing.  On a Null operand, whenever the index admits a string
rendering (every JSON-renderable index, in particular Numbers and
Strings) the result is Null. -/
theorem c6_index_single_semantics :
    (∀ (xs : List RuntimeValue) (q : ℚ), q.den ≠ 1 →
      _index_single (.array xs) (.number q) =
        .error (.exc "index: Non-integers cannot be used on arrays")) ∧
    (∀ (s : String) (q : ℚ), q.den ≠ 1 →
      _index_single (.string s) (.number q) =
        .error (.exc "index: Non-integers cannot be used on arrays")) ∧
    (∀ (xs : List RuntimeValue) (n : ℤ),
      _index_single (.array xs) (.number ((n : ℤ) : ℚ)) =
        (if 0 ≤ (if n < 0 then (xs.length : ℤ) + n else n) ∧
            (if n < 0 then (xs.length : ℤ) + n else n) < (xs.length : ℤ) then
          .ok (xs.getD (if n < 0 then (xs.length : ℤ) + n else n).toNat .null)
        else .ok .null)) ∧
    (∀ (s : String) (n : ℤ),
      _index_single (.string s) (.number ((n : ℤ) : ℚ)) =
        (if 0 ≤ (if n < 0 then (s.length : ℤ) + n else n) ∧
            (if n < 0 then (s.length : ℤ) + n else n) < (s.length : ℤ) then
          .ok (.string (String.mk
            [s.data.getD (if n < 0 then (s.length : ℤ) + n else n).toNat ' ']))
        else .ok .null)) ∧
    (∀ (es : List (String × RuntimeValue)) (key : String),
      _index_single (.object es) (.string key) =
        .ok ((lookupEntry key es).getD .null)) ∧
    (∀ (i : RuntimeValue) (s : String), i.to_string = .ok s →
      _index_single .null i = .ok .null) := by
  have hint : ∀ n : ℤ, pyMod ((n : ℤ) : ℚ) 1 = 0 := by
    intro n
    rw [pyMod_one_eq_zero_iff]
    exact Rat.den_intCast n
  refine ⟨?_, ?_, ?_, ?_, ?_, ?_⟩
  · intro xs q hq
    have : pyMod q 1 ≠ 0 := fun h => hq ((pyMod_one_eq_zero_iff q).mp h)
    simp [_index_single, this]
  · intro s q hq
    have : pyMod q 1 ≠ 0 := fun h => hq ((pyMod_one_eq_zero_iff q).mp h)
    simp [_index_single, this]
  · intro xs n
    simp only [_index_single, hint n, pyTrunc_intCast, ne_eq,
      not_true_eq_false, if_false]
    split_ifs <;> simp_all <;> omega
  · intro s n
    simp only [_index_single, hint n, pyTrunc_intCast, ne_eq,
      not_true_eq_false, if_false]
    split_ifs <;> simp_all <;> omega
  · intro es key
    simp [_index_single, RuntimeValue.to_string, RuntimeValue.access]
  · intro i s hi
    simp [_index_single, hi, RuntimeValue.access]

/-- Witness for C6 at concrete inputs: the fractional index 1/2 raises,
`[10, 20][-1]` wraps to the last element, `[10, 20][5]` is Null,
`"ab"[0]` is the character `a`, `{ a: 7 }.index of "a"` is the member,
and Null indexed by a String (and by a Number) is Null. -/
theorem c6_index_single_semantics_witness :
    ((Rat.divInt 1 2).den ≠ 1 ∧
      _index_single (.array [.number 10]) (.number (Rat.divInt 1 2)) =
        .error (.exc "index: Non-integers cannot be used on arrays")) ∧
    _index_single (.array [.number 10, .number 20]) (.number ((-1 : ℤ) : ℚ)) =
      .ok (.number 20) ∧
    _index_single (.array [.number 10, .number 20]) (.number ((5 : ℤ) : ℚ)) =
      .ok .null ∧
    _index_single (.string "ab") (.number ((0 : ℤ) : ℚ)) = .ok (.string "a") ∧
    _index_single (.object [("a", .number 7)]) (.string "a") = .ok (.number 7) ∧
    ((RuntimeValue.string "k").to_string = .ok "k" ∧
      _index_single .null (.string "k") = .ok .null) := by
  refine ⟨⟨by decide, ?_⟩, ?_, ?_, ?_, ?_, ⟨rfl, ?_⟩⟩
  · exact c6_index_single_semantics.1 [.number 10] (Rat.divInt 1 2) (by decide)
  · exact (c6_index_single_semantics.2.2.1 [.number 10, .number 20] (-1)).trans (by rfl)
  · exact (c6_index_single_semantics.2.2.1 [.number 10, .number 20] 5).trans (by rfl)
  · exact (c6_index_single_semantics.2.2.2.1 "ab" 0).trans (by rfl)
  · exact c6_index_single_semantics.2.2.2.2.1 [("a", .number 7)] "a"
  · exact c6_index_single_semantics.2.2.2.2.2 (.string "k") "k" rfl

/-- Modelled from the spec words, for comparison with the code (C7): the
inclusive-exclusive slice of `xs` from `a` to `b` — the elements whose
position `i` satisfies `a ≤ i < b`. -/
def spec_slice {α : Type} (xs : List α) (a b : ℤ) : List α :=
  (xs.enum.filter (fun p => decide ((a ≤ (p.1 : ℤ)) ∧ ((p.1 : ℤ) < b)))).map Prod.snd

/-- C7 counterexample: on `index (-5) 3 x` with `x` a 3-element array,
the claim wraps the negative bound to `-5 + 3 = -2` and takes the
inclusive-exclusive slice from `-2` to `3`, which contains all three
elements; the code hands the once-wrapped `-2` to a python slice, where
a still-negative bound counts from the end again, producing only the
last two elements. -/
theorem c7_slice_counterexample :
    _index_double (.array [.number 10, .number 20, .number 30])
        (.number ((-5 : ℤ) : ℚ)) (.number ((3 : ℤ) : ℚ)) =
      .ok (.array [.number 20, .number 30]) ∧
    spec_slice ([.number 10, .number 20, .number 30] : List RuntimeValue) (-5 + 3) 3 =
      [.number 10, .number 20, .number 30] ∧
    ([.number 20, .number 30] : List RuntimeValue) ≠
      [.number 10, .number 20, .number 30] :=
  ⟨rfl, rfl, fun h => absurd (congrArg List.length h) (by decide)⟩

/-- A nonnegative slice bound at or above the length clamps to the
length. -/
theorem pySliceIdx_large (n : Nat) (B : ℤ) (h : (n : ℤ) ≤ B) :
    pySliceIdx n B = pySliceIdx n (n : ℤ) := by
  unfold pySliceIdx
  rw [if_neg (show ¬ B < 0 by omega), if_neg (show ¬ ((n : ℤ) < 0) by omega),
    min_eq_right h, min_self]

/-- A python slice whose stop bound is at least the length stops at the
length. -/
theorem pySliceList_large_stop {α : Type} (xs : List α) (i B : ℤ)
    (h : (xs.length : ℤ) ≤ B) :
    pySliceList xs i B = pySliceList xs i (xs.length : ℤ) := by
  unfold pySliceList
  rw [pySliceIdx_large _ _ h]

/-- The python integrality test holds on every integer-valued rational. -/
theorem pyMod_intCast_one (n : ℤ) : pyMod ((n : ℤ) : ℚ) 1 = 0 :=
  (pyMod_one_eq_zero_iff _).mpr (Rat.den_intCast n)

/-- The slice equation of `_index_double` on an Array operand with two
integral bounds. -/
theorem index_double_array_slice (xs : List RuntimeValue) (n1 n2 : ℤ) :
    _index_double (.array xs) (.number ((n1 : ℤ) : ℚ)) (.number ((n2 : ℤ) : ℚ)) =
      .ok (.array (pySliceList xs
        (if n1 < 0 then (xs.length : ℤ) + n1 else n1)
        (if n2 < 0 then (xs.length : ℤ) + n2 else n2))) := by
  simp [_index_double, sliceBounds, RuntimeValue.type, pyMod_intCast_one,
    pyTrunc_intCast]

/-- The slice equation of `_index_double` on a String operand with two
integral bounds. -/
theorem index_double_string_slice (s : String) (n1 n2 : ℤ) :
    _index_double (.string s) (.number ((n1 : ℤ) : ℚ)) (.number ((n2 : ℤ) : ℚ)) =
      .ok (.string (String.mk (pySliceList s.data
        (if n1 < 0 then (s.length : ℤ) + n1 else n1)
        (if n2 < 0 then (s.length : ℤ) + n2 else n2)))) := by
  simp [_index_double, sliceBounds, RuntimeValue.type, pyMod_intCast_one,
    pyTrunc_intCast]

/-- C7 (amended): the 3-argument slice `index a b x` on an Array or
String.  A Null `a` defaults to 0; a Null `b` defaults to the constant
10000000000000 the source uses in place of the length, which produces
the same slice as `len(x)` whenever `len(x) ≤ 10¹³; both given bounds
must be integer Numbers (a fractional bound raises, a non-Number
non-Null bound raises); a negative bound has `len(x)` added once, and
the result is the python slice between the resulting bounds — a bound
still negative after that single wrap counts from the end again and
clamps, per python slice semantics (`pySliceList`).  Slicing any other
variant is an error. -/
theorem c7_index_double_semantics :
    (∀ (x i2 : RuntimeValue),
      _index_double x .null i2 = _index_double x (.number 0) i2) ∧
    (∀ (x i1 : RuntimeValue),
      _index_double x i1 .null = _index_double x i1 (.number 10000000000000)) ∧
    (∀ (xs : List RuntimeValue) (n1 : ℤ),
      xs.length ≤ 10000000000000 →
      _index_double (.array xs) (.number ((n1 : ℤ) : ℚ)) .null =
        _index_double (.array xs) (.number ((n1 : ℤ) : ℚ))
          (.number ((xs.length : ℤ) : ℚ))) ∧
    (∀ (xs : List RuntimeValue) (q1 q2 : ℚ), q1.den ≠ 1 →
      _index_double (.array xs) (.number q1) (.number q2) =
        .error (.exc "index: Non-integers cannot be used on arrays")) ∧
    (∀ (xs : List RuntimeValue) (n1 : ℤ) (q2 : ℚ), q2.den ≠ 1 →
      _index_double (.array xs) (.number ((n1 : ℤ) : ℚ)) (.number q2) =
        .error (.exc "index: Non-integers cannot be used on arrays")) ∧
    (∀ (xs : List RuntimeValue) (b1 i2 : RuntimeValue),
      b1.type ≠ .Number → b1.type ≠ .Null →
      _index_double (.array xs) b1 i2 =
        .error (.exc "index: Non-numbers cannot be used on arrays")) ∧
    (∀ (xs : List RuntimeValue) (n1 n2 : ℤ),
      _index_double (.array xs) (.number ((n1 : ℤ) : ℚ)) (.number ((n2 : ℤ) : ℚ)) =
        .ok (.array (pySliceList xs
          (if n1 < 0 then (xs.length : ℤ) + n1 else n1)
          (if n2 < 0 then (xs.length : ℤ) + n2 else n2)))) ∧
    (∀ (s : String) (n1 n2 : ℤ),
      _index_double (.string s) (.number ((n1 : ℤ) : ℚ)) (.number ((n2 : ℤ) : ℚ)) =
        .ok (.string (String.mk (pySliceList s.data
          (if n1 < 0 then (s.length : ℤ) + n1 else n1)
          (if n2 < 0 then (s.length : ℤ) + n2 else n2))))) ∧
    (∀ (x i1 i2 : RuntimeValue), x.type ≠ .Array → x.type ≠ .String →
      _index_double x i1 i2 =
        .error (.exc "index: operand is not an array or string")) := by
  have hfrac : ∀ q : ℚ, q.den ≠ 1 → pyMod q 1 ≠ 0 := fun q hq h =>
    hq ((pyMod_one_eq_zero_iff q).mp h)
  refine ⟨?_, ?_, ?_, ?_, ?_, ?_, ?_, ?_, ?_⟩
  · intro x i2
    cases x <;> rfl
  · intro x i1
    cases x <;> rfl
  · intro xs n1 hlen
    have hnull : _index_double (.array xs) (.number ((n1 : ℤ) : ℚ)) .null =
        _index_double (.array xs) (.number ((n1 : ℤ) : ℚ)) (.number 10000000000000) := rfl
    have hcast : ((10000000000000 : ℤ) : ℚ) = (10000000000000 : ℚ) := by norm_num
    rw [hnull, ← hcast, index_double_array_slice, index_double_array_slice]
    rw [if_neg (show ¬ ((10000000000000 : ℤ) < 0) by omega),
      if_neg (show ¬ (((xs.length : ℤ)) < 0) by omega),
      pySliceList_large_stop xs _ _ (by exact_mod_cast hlen)]
  · intro xs q1 q2 hq
    simp [_index_double, sliceBounds, RuntimeValue.type, hfrac q1 hq]
  · intro xs n1 q2 hq
    simp [_index_double, sliceBounds, RuntimeValue.type, pyMod_intCast_one,
      hfrac q2 hq]
  · intro xs b1 i2 hb1 hb2
    cases b1 <;> simp_all [_index_double, sliceBounds, RuntimeValue.type]
  · intro xs n1 n2
    exact index_double_array_slice xs n1 n2
  · intro s n1 n2
    exact index_double_string_slice s n1 n2
  · intro x i1 i2 hxa hxs
    cases x <;> simp_all [_index_double, RuntimeValue.type]

/-- Witness for C7 at concrete inputs: Null bound defaulting, the
length-equivalence of the sentinel stop on a short array, the fractional
and non-Number errors, the array and string slice equations, and the
error on an Object operand. -/
theorem c7_index_double_semantics_witness :
    (_index_double (.boolean true) .null (.number 1) =
      _index_double (.boolean true) (.number 0) (.number 1)) ∧
    (_index_double (.array [.number 1]) (.number 0) .null =
      _index_double (.array [.number 1]) (.number 0) (.number 10000000000000)) ∧
    (([RuntimeValue.number 5, .number 6] : List RuntimeValue).length ≤ 10000000000000 ∧
      _index_double (.array [.number 5, .number 6]) (.number ((0 : ℤ) : ℚ)) .null =
        _index_double (.array [.number 5, .number 6]) (.number ((0 : ℤ) : ℚ))
          (.number (((([RuntimeValue.number 5, .number 6] : List RuntimeValue).length : ℤ)) : ℚ))) ∧
    ((Rat.divInt 1 2).den ≠ 1 ∧
      _index_double (.array []) (.number (Rat.divInt 1 2)) (.number 0) =
        .error (.exc "index: Non-integers cannot be used on arrays")) ∧
    ((RuntimeValue.string "x").type ≠ RuntimeValueType.Number ∧
      (RuntimeValue.string "x").type ≠ RuntimeValueType.Null ∧
      _index_double (.array []) (.string "x") (.number 0) =
        .error (.exc "index: Non-numbers cannot be used on arrays")) ∧
    (_index_double (.array [.number 7, .number 8, .number 9])
        (.number ((1 : ℤ) : ℚ)) (.number ((-1 : ℤ) : ℚ)) =
      .ok (.array (pySliceList [RuntimeValue.number 7, .number 8, .number 9]
        (if (1 : ℤ) < 0 then (3 : ℤ) + 1 else 1)
        (if (-1 : ℤ) < 0 then (3 : ℤ) + (-1) else (-1))))) ∧
    ((RuntimeValue.object []).type ≠ RuntimeValueType.Array ∧
      (RuntimeValue.object []).type ≠ RuntimeValueType.String ∧
      _index_double (.object []) (.number 0) (.number 1) =
        .error (.exc "index: operand is not an array or string")) := by
  refine ⟨?_, ?_, ⟨by decide, ?_⟩, ⟨by decide, ?_⟩, ⟨by decide, by decide, ?_⟩, ?_, ⟨by decide, by decide, ?_⟩⟩
  · exact c7_index_double_semantics.1 (.boolean true) (.number 1)
  · exact c7_index_double_semantics.2.1 (.array [.number 1]) (.number 0)
  · exact c7_index_double_semantics.2.2.1 [.number 5, .number 6] 0 (by decide)
  · exact c7_index_double_semantics.2.2.2.1 [] (Rat.divInt 1 2) 0 (by decide)
  · exact c7_index_double_semantics.2.2.2.2.2.1 [] (.string "x") (.number 0)
      (by decide) (by decide)
  · exact c7_index_double_semantics.2.2.2.2.2.2.1 [.number 7, .number 8, .number 9] 1 (-1)
  · exact c7_index_double_semantics.2.2.2.2.2.2.2.2 (.object []) (.number 0) (.number 1)
      (by decide) (by decide)

/-- Structural induction for host values that hands list and dict cases
a hypothesis for every element. -/
def PyValue.inductionDeep {motive : PyValue → Prop}
    (hnone : motive .none) (hbool : ∀ b, motive (.bool b))
    (hint : ∀ n, motive (.int n)) (hfloat : ∀ q, motive (.float q))
    (hstr : ∀ s, motive (.str s))
    (hlist : ∀ items, (∀ x ∈ items, motive x) → motive (.list items))
    (hdict : ∀ es, (∀ p ∈ es, motive p.2) → motive (.dict es)) :
    ∀ v, motive v
  | .none => hnone
  | .bool b => hbool b
  | .int n => hint n
  | .float q => hfloat q
  | .str s => hstr s
  | .list items =>
    hlist items (fun x hx =>
      PyValue.inductionDeep hnone hbool hint hfloat hstr hlist hdict x)
  | .dict es =>
    hdict es (fun p hp =>
      PyValue.inductionDeep hnone hbool hint hfloat hstr hlist hdict p.2)
termination_by v => sizeOf v
decreasing_by
  · have := List.sizeOf_lt_of_mem hx
    simp only [PyValue.list.sizeOf_spec]
    omega
  · have h1 := List.sizeOf_lt_of_mem hp
    have h2 : sizeOf p.2 < sizeOf p := by
      cases p with
      | mk a b => simp
    simp only [PyValue.dict.sizeOf_spec]
    omega

/-- The host value's integers are all fixed points of CPython `float()`,
i.e. exactly representable as IEEE-754 doubles (every magnitude of at
most 53 bits qualifies, as do larger multiples of the matching power of
two).  Floats, strings, booleans and null are unrestricted; the predicate
recurses through lists and dicts. -/
inductive ExactInts : PyValue → Prop where
  | none : ExactInts .none
  | bool (b : Bool) : ExactInts (.bool b)
  | int (n : ℤ) (h : pyFloatOfInt n = .ok ((n : ℤ) : ℚ)) : ExactInts (.int n)
  | float (q : ℚ) : ExactInts (.float q)
  | str (s : String) : ExactInts (.str s)
  | list (items : List PyValue) (h : ∀ x ∈ items, ExactInts x) :
      ExactInts (.list items)
  | dict (es : List (String × PyValue)) (h : ∀ p ∈ es, ExactInts p.2) :
      ExactInts (.dict es)

/-- Elementwise round trip for the list payload. -/
theorem toPythonList_ofList (items : List PyValue)
    (ih : ∀ x ∈ items, ExactInts x →
      ∃ w, (RuntimeValue.of x).bind RuntimeValue.to_python = .ok w ∧
        pyEq w x = true)
    (hex : ∀ x ∈ items, ExactInts x) :
    ∃ vs ws, RuntimeValue.ofList items = .ok vs ∧
      RuntimeValue.toPythonList vs = .ok ws ∧ pyEqList ws items = true := by
  induction items with
  | nil => exact ⟨[], [], rfl, rfl, rfl⟩
  | cons x xs ihxs =>
    obtain ⟨w, hw, hq⟩ :=
      ih x (List.mem_cons_self x xs) (hex x (List.mem_cons_self x xs))
    obtain ⟨vs, ws, hvs, hws, hqs⟩ :=
      ihxs (fun y hy => ih y (List.mem_cons_of_mem x hy))
        (fun y hy => hex y (List.mem_cons_of_mem x hy))
    cases hof : RuntimeValue.of x with
    | error e => rw [hof] at hw; simp at hw
    | ok v =>
      rw [hof] at hw
      simp only [mq_bindE_ok] at hw
      refine ⟨v :: vs, w :: ws, ?_, ?_, ?_⟩
      · simp [RuntimeValue.ofList, hof, hvs]
      · simp [RuntimeValue.toPythonList, hw, hws]
      · simp [pyEqList, hq, hqs]

/-- Entrywise round trip for the dict payload. -/
theorem toPythonEntries_ofEntries (es : List (String × PyValue))
    (ih : ∀ p ∈ es, ExactInts p.2 →
      ∃ w, (RuntimeValue.of p.2).bind RuntimeValue.to_python = .ok w ∧
        pyEq w p.2 = true)
    (hex : ∀ p ∈ es, ExactInts p.2) :
    ∃ vs ws, RuntimeValue.ofEntries es = .ok vs ∧
      RuntimeValue.toPythonEntries vs = .ok ws ∧ pyEqEntries ws es = true := by
  induction es with
  | nil => exact ⟨[], [], rfl, rfl, rfl⟩
  | cons p ps ihps =>
    obtain ⟨k, v⟩ := p
    obtain ⟨w, hw, hq⟩ :=
      ih (k, v) (List.mem_cons_self _ ps) (hex (k, v) (List.mem_cons_self _ ps))
    obtain ⟨vs, ws, hvs, hws, hqs⟩ :=
      ihps (fun y hy => ih y (List.mem_cons_of_mem _ hy))
        (fun y hy => hex y (List.mem_cons_of_mem _ hy))
    cases hof : RuntimeValue.of v with
    | error e => rw [hof] at hw; simp at hw
    | ok rv =>
      rw [hof] at hw
      simp only [mq_bindE_ok] at hw
      refine ⟨(k, rv) :: vs, (k, w) :: ws, ?_, ?_, ?_⟩
      · simp [RuntimeValue.ofEntries, hof, hvs]
      · simp [RuntimeValue.toPythonEntries, hw, hws]
      · simp [pyEqEntries, hq, hqs]

/-- C8 (amended): for every JSON-shaped host value (null, booleans,
numbers, strings, lists, string-keyed mappings — rationals carry no
non-finite numbers, matching the claim's restriction) whose integers are
all exactly representable as IEEE-754 doubles (fixed points of CPython
`float()`), converting through the input garden wall and back through the
output garden wall yields a value that python `==` deems equal to the
original: ints come back as numerically equal floats, every other variant
and all structure return exactly.  Without the representability
restriction the claim is false: `float()` rounds 54-bit-and-larger
magnitudes on the way in, see the counterexample at `2 ^ 53 + 1`. -/
theorem c8_gardenwall_roundtrip (v : PyValue) (hex : ExactInts v) :
    ∃ w, (input_garden_wall v).bind output_garden_wall = .ok w ∧
      pyEq w v = true := by
  revert hex
  induction v using PyValue.inductionDeep with
  | hnone => exact fun _ => ⟨.none, rfl, rfl⟩
  | hbool b => exact fun _ => ⟨.bool b, rfl, by simp [pyEq]⟩
  | hint n =>
    intro hex
    cases hex with
    | int n h =>
      refine ⟨.float ((n : ℤ) : ℚ), ?_, by simp [pyEq]⟩
      simp [input_garden_wall, output_garden_wall, RuntimeValue.of, h,
        RuntimeValue.to_python]
  | hfloat q => exact fun _ => ⟨.float q, rfl, by simp [pyEq]⟩
  | hstr s => exact fun _ => ⟨.str s, rfl, by simp [pyEq]⟩
  | hlist items ih =>
    intro hex
    cases hex with
    | list _ hmem =>
      obtain ⟨vs, ws, hvs, hws, hqs⟩ :=
        toPythonList_ofList items (fun x hx hex => ih x hx hex) hmem
      refine ⟨.list ws, ?_, by simp [pyEq, hqs]⟩
      simp [input_garden_wall, output_garden_wall, RuntimeValue.of, hvs,
        RuntimeValue.to_python, hws]
  | hdict es ih =>
    intro hex
    cases hex with
    | dict _ hmem =>
      obtain ⟨vs, ws, hvs, hws, hqs⟩ :=
        toPythonEntries_ofEntries es (fun p hp hex => ih p hp hex) hmem
      refine ⟨.dict ws, ?_, by simp [pyEq, hqs]⟩
      simp [input_garden_wall, output_garden_wall, RuntimeValue.of, hvs,
        RuntimeValue.to_python, hws]

/-- Witness: the amended round trip at the concrete value
`[3, \x7b"a": true\x7d, 1/2]`, whose one integer has 2 bits and is thus a
`float()` fixed point. -/
theorem c8_gardenwall_roundtrip_witness :
    ∃ w,
      (input_garden_wall
        (.list [.int 3, .dict [("a", .bool true)], .float (Rat.divInt 1 2)])).bind
          output_garden_wall = .ok w ∧
      pyEq w (.list [.int 3, .dict [("a", .bool true)], .float (Rat.divInt 1 2)]) =
        true := by
  refine c8_gardenwall_roundtrip _ (ExactInts.list _ ?_)
  intro x hx
  rcases List.mem_cons.mp hx with h | hx
  · exact h ▸ ExactInts.int 3 rfl
  rcases List.mem_cons.mp hx with h | hx
  · refine h ▸ ExactInts.dict _ ?_
    intro p hp
    rcases List.mem_singleton.mp hp with rfl
    exact ExactInts.bool true
  rcases List.mem_singleton.mp hx with rfl
  exact ExactInts.float (Rat.divInt 1 2)

set_option maxRecDepth 100000 in
set_option exponentiation.threshold 1300 in
/-- C8 counterexample: CPython `float()` rounds `2 ^ 53 + 1` — a 54-bit
integer exactly halfway between the doubles `2 ^ 53` and `2 ^ 53 + 2` —
to the even mantissa `2 ^ 53` on the way through the input garden wall,
so the round trip returns the float `9007199254740992.0`; python `==` on
an int/float pair is exact, so it distinguishes that from
`9007199254740993` and the unrestricted round-trip claim fails here. -/
theorem c8_int_rounding_counterexample :
    (input_garden_wall (.int (2 ^ 53 + 1))).bind output_garden_wall =
      .ok (.float ((2 ^ 53 : ℤ) : ℚ)) ∧
    pyEq (.float ((2 ^ 53 : ℤ) : ℚ)) (.int (2 ^ 53 + 1)) = false :=
  ⟨rfl, by decide⟩

deriving instance DecidableEq for Except

/-- The code-point order on character lists is irreflexive. -/
theorem charsLt_irrefl (l : List Char) : charsLt l l = false := by
  induction l with
  | nil => rfl
  | cons c cs ih => simp [charsLt, ih]

/-- The code-point order on character lists is asymmetric. -/
theorem charsLt_asymm (a b : List Char) (h : charsLt a b = true) :
    charsLt b a = false := by
  induction a generalizing b with
  | nil =>
    cases b with
    | nil => simp [charsLt] at h
    | cons d ds => rfl
  | cons c cs ih =>
    cases b with
    | nil => simp [charsLt] at h
    | cons d ds =>
      simp only [charsLt] at h ⊢
      by_cases h1 : c.toNat < d.toNat
      · rw [if_neg (by omega), if_pos h1]
      · by_cases h2 : d.toNat < c.toNat
        · simp [h1, h2] at h
        · have hcd : ¬ d.toNat < c.toNat := h2
          simp only [if_neg h1, if_neg h2] at h
          rw [if_neg h2, if_neg h1]
          exact ih ds h

/-- Two character lists neither of which precedes the other are equal. -/
theorem charsLt_antisymm (a b : List Char) (h1 : charsLt a b = false)
    (h2 : charsLt b a = false) : a = b := by
  induction a generalizing b with
  | nil =>
    cases b with
    | nil => rfl
    | cons d ds => simp [charsLt] at h1
  | cons c cs ih =>
    cases b with
    | nil => simp [charsLt] at h2
    | cons d ds =>
      simp only [charsLt] at h1 h2
      by_cases hc : c.toNat < d.toNat
      · simp [hc] at h1
      · by_cases hd : d.toNat < c.toNat
        · simp [hd] at h2
        · have hnat : c.toNat = d.toNat := by omega
          have hce : c = d := Char.eq_of_val_eq (UInt32.toNat.inj hnat)
          subst hce
          simp only [if_neg hc, if_neg hd] at h1 h2
          rw [ih ds h1 h2]

/-- A successful comparison implies both operands are comparable. -/
theorem compare_ok_comparable (a b : RuntimeValue) (c : ℚ)
    (h : RuntimeValue.compare a b = .ok c) : a.comparable = true := by
  unfold RuntimeValue.compare at h
  split_ifs at h with h1 h2
  · simpa using h2

/-- A comparable value compares equal to itself. -/
theorem compare_self (k : RuntimeValue) (hk : k.comparable = true) :
    RuntimeValue.compare k k = .ok 0 := by
  cases k <;> simp_all [RuntimeValue.comparable] <;>
    simp [RuntimeValue.compare, RuntimeValue.type, RuntimeValue.comparable,
      pySub_eq, strLt, charsLt_irrefl]

/-- Zero comparison is definitional equality: the boolean case forces
equal casts, the number case a zero difference, the string case equality
by antisymmetry of the code-point order. -/
theorem compare_zero_eq (a b : RuntimeValue)
    (h : RuntimeValue.compare a b = .ok 0) : a = b := by
  unfold RuntimeValue.compare at h
  split_ifs at h with h1 h2
  cases a <;> cases b <;> simp_all [RuntimeValue.type, RuntimeValue.comparable]
  · rename_i x y
    cases x <;> cases y <;> simp_all
  · rename_i x y
    rw [pySub_eq] at h
    exact sub_eq_zero.mp (by exact_mod_cast h)
  · rename_i x y
    by_cases hxy : strLt x y
    · have hyx := charsLt_asymm _ _ hxy
      simp only [strLt] at hxy hyx
      simp [strLt, hxy, hyx] at h
    · by_cases hyx : strLt y x
      · simp only [strLt] at hyx hxy
        simp [strLt, hyx, hxy] at h
      · have hd : x.data = y.data :=
          charsLt_antisymm _ _ (by simpa [strLt] using hxy) (by simpa [strLt] using hyx)
        cases x
        cases y
        exact congrArg String.mk (by simpa using hd)

/-- The pairs whose key compares equal to a reference key `k`. -/
def pairKeyEq (k : RuntimeValue) (p : RuntimeValue × RuntimeValue) : Bool :=
  decide (RuntimeValue.compare p.1 k = .ok 0)

/-- Items whose key (computed by evaluating the key expression with the
item pushed as focus, as sortby does) compares equal to `k`. -/
def keyMatches (exec : Exec) (keyE : Expr) (stack : Stack) (k item : RuntimeValue) : Bool :=
  match exec keyE (add_runtime_value_to_stack item stack) with
  | .ok kv => decide (RuntimeValue.compare kv k = .ok 0)
  | .error _ => false

/-- Stable insertion never disturbs the subsequence of pairs whose key
compares equal to any fixed reference key. -/
theorem insert_sorted_pair_filter (k : RuntimeValue)
    (x : RuntimeValue × RuntimeValue) :
    ∀ (l out : List (RuntimeValue × RuntimeValue)),
    insert_sorted_pair x l = .ok out →
    out.filter (pairKeyEq k) = (x :: l).filter (pairKeyEq k) := by
  intro l
  induction l with
  | nil =>
    intro out h
    simp only [insert_sorted_pair] at h
    cases h
    rfl
  | cons y ys ih =>
    intro out h
    simp only [insert_sorted_pair] at h
    cases hc : RuntimeValue.compare x.1 y.1 with
    | error e => rw [hc] at h; simp at h
    | ok c =>
      rw [hc] at h
      simp only [mq_bind_ok] at h
      by_cases hle : c ≤ 0
      · rw [if_pos hle] at h
        cases h
        rfl
      · rw [if_neg hle] at h
        cases hr : insert_sorted_pair x ys with
        | error e => rw [hr] at h; simp at h
        | ok rest =>
          rw [hr] at h
          simp only [mq_bind_ok] at h
          cases h
          have hrec := ih rest hr
          by_cases hpx : pairKeyEq k x
          · by_cases hpy : pairKeyEq k y
            · exfalso
              have hx1 : x.1 = k := compare_zero_eq _ _ (of_decide_eq_true hpx)
              have hy1 : y.1 = k := compare_zero_eq _ _ (of_decide_eq_true hpy)
              have hkc : k.comparable = true := by
                have := compare_ok_comparable x.1 y.1 c hc
                rwa [hx1] at this
              have : RuntimeValue.compare x.1 y.1 = .ok 0 := by
                rw [hx1, hy1]
                exact compare_self k hkc
              rw [hc] at this
              cases this
              exact hle le_rfl
            · simp [List.filter, hpx, hpy, hrec]
          · by_cases hpy : pairKeyEq k y
            · simp [List.filter, hpx, hpy, hrec]
            · simp [List.filter, hpx, hpy, hrec]

/-- The stable sort of sortby never disturbs the subsequence of pairs
whose key compares equal to any fixed reference key. -/
theorem sort_pairs_filter (k : RuntimeValue) :
    ∀ (l out : List (RuntimeValue × RuntimeValue)),
    sort_pairs l = .ok out →
    out.filter (pairKeyEq k) = l.filter (pairKeyEq k) := by
  intro l
  induction l with
  | nil =>
    intro out h
    cases h
    rfl
  | cons x xs ih =>
    intro out h
    simp only [sort_pairs] at h
    cases hs : sort_pairs xs with
    | error e => rw [hs] at h; simp at h
    | ok s =>
      rw [hs] at h
      simp only [mq_bind_ok] at h
      have h1 := insert_sorted_pair_filter k x s out h
      have h2 := ih s hs
      rw [h1]
      simp [List.filter_cons, h2]

/-- Insertion produces no new pairs. -/
theorem insert_sorted_pair_mem (x : RuntimeValue × RuntimeValue) :
    ∀ (l out : List (RuntimeValue × RuntimeValue)),
    insert_sorted_pair x l = .ok out →
    ∀ p ∈ out, p = x ∨ p ∈ l := by
  intro l
  induction l with
  | nil =>
    intro out h p hp
    simp only [insert_sorted_pair] at h
    cases h
    exact Or.inl (List.mem_singleton.mp hp)
  | cons y ys ih =>
    intro out h p hp
    simp only [insert_sorted_pair] at h
    cases hc : RuntimeValue.compare x.1 y.1 with
    | error e => rw [hc] at h; simp at h
    | ok c =>
      rw [hc] at h
      simp only [mq_bind_ok] at h
      by_cases hle : c ≤ 0
      · rw [if_pos hle] at h
        cases h
        rcases List.mem_cons.mp hp with hp1 | hp2
        · exact Or.inl hp1
        · exact Or.inr hp2
      · rw [if_neg hle] at h
        cases hr : insert_sorted_pair x ys with
        | error e => rw [hr] at h; simp at h
        | ok rest =>
          rw [hr] at h
          simp only [mq_bind_ok] at h
          cases h
          rcases List.mem_cons.mp hp with hp1 | hp2
          · exact Or.inr (hp1 ▸ List.mem_cons_self y ys)
          · rcases ih rest hr p hp2 with hh | hh
            · exact Or.inl hh
            · exact Or.inr (List.mem_cons_of_mem y hh)

/-- Sorting produces no new pairs. -/
theorem sort_pairs_mem :
    ∀ (l out : List (RuntimeValue × RuntimeValue)),
    sort_pairs l = .ok out → ∀ p ∈ out, p ∈ l := by
  intro l
  induction l with
  | nil =>
    intro out h p hp
    cases h
    simp at hp
  | cons x xs ih =>
    intro out h p hp
    simp only [sort_pairs] at h
    cases hs : sort_pairs xs with
    | error e => rw [hs] at h; simp at h
    | ok s =>
      rw [hs] at h
      simp only [mq_bind_ok] at h
      rcases insert_sorted_pair_mem x s out h p hp with hh | hh
      · simp [hh]
      · exact List.mem_cons_of_mem x (ih s hs p hh)

/-- Shape of the `with_key` list sortby builds: the items in order, each
tagged with the key its evaluation produced. -/
theorem withKey_spec (exec : Exec) (keyE : Expr) (stack : Stack) :
    ∀ (xs : List RuntimeValue) (pairs : List (RuntimeValue × RuntimeValue)),
    xs.mapM (fun item => do
      let key ← exec keyE (add_runtime_value_to_stack item stack)
      pure (key, item)) = .ok pairs →
    pairs.map Prod.snd = xs ∧
      ∀ p ∈ pairs, exec keyE (add_runtime_value_to_stack p.2 stack) = .ok p.1 := by
  intro xs
  induction xs with
  | nil =>
    intro pairs h
    simp only [List.mapM_nil] at h
    cases h
    exact ⟨rfl, by simp⟩
  | cons x xs ih =>
    intro pairs h
    rw [List.mapM_cons] at h
    cases hk : exec keyE (add_runtime_value_to_stack x stack) with
    | error e => rw [hk] at h; simp [Except.bind] at h
    | ok key =>
      rw [hk] at h
      cases hrest : xs.mapM (fun item => do
          let key ← exec keyE (add_runtime_value_to_stack item stack)
          pure (key, item)) with
      | error e => rw [hrest] at h; simp [Except.bind, Except.pure] at h
      | ok rest =>
        rw [hrest] at h
        obtain ⟨hsnd, hmem⟩ := ih rest hrest
        simp only [mq_bind_ok] at h
        have hpairs : pairs = (key, x) :: rest := by
          cases h
          rfl
        subst hpairs
        refine ⟨by simp [hsnd], ?_⟩
        intro p hp
        rcases List.mem_cons.mp hp with hp1 | hp2
        · subst hp1
          simpa using hk
        · exact hmem p hp2

/-- Filtering tagged pairs by key equality and projecting the items is
the same as filtering the items by their recomputed key. -/
theorem filter_pairs_snd (exec : Exec) (keyE : Expr) (stack : Stack)
    (k : RuntimeValue) :
    ∀ pairs : List (RuntimeValue × RuntimeValue),
    (∀ p ∈ pairs, exec keyE (add_runtime_value_to_stack p.2 stack) = .ok p.1) →
    (pairs.filter (pairKeyEq k)).map Prod.snd =
      (pairs.map Prod.snd).filter (keyMatches exec keyE stack k) := by
  intro pairs
  induction pairs with
  | nil => intro _; rfl
  | cons p ps ih =>
    intro hall
    have hp := hall p (List.mem_cons_self p ps)
    have hkm : keyMatches exec keyE stack k p.2 =
        decide (RuntimeValue.compare p.1 k = .ok 0) := by
      simp [keyMatches, hp]
    have hrest := ih (fun q hq => hall q (List.mem_cons_of_mem p hq))
    by_cases hpk : pairKeyEq k p
    · simp only [pairKeyEq] at hpk
      simp [List.filter, pairKeyEq, hpk, hkm, hrest]
    · simp only [pairKeyEq] at hpk
      simp [List.filter, pairKeyEq, hpk, hkm, hrest]

/-- C9: `sortby f xs` is stable.  For every reference key `k`, the
subsequence of output items whose key (computed exactly as sortby
computes it, by evaluating `f` with the item pushed as focus) compares
equal to `k` is the same subsequence, in the same order, as in the
input array. -/
theorem c9_sortby_stable (exec : Exec) (keyE targetE : Expr) (stack : Stack)
    (xs ys : List RuntimeValue) (k : RuntimeValue)
    (htgt : exec targetE stack = .ok (.array xs))
    (hsort : sortby [keyE, targetE] stack exec = .ok (.array ys)) :
    ys.filter (keyMatches exec keyE stack k) =
      xs.filter (keyMatches exec keyE stack k) := by
  simp only [sortby, htgt, mq_bind_ok] at hsort
  cases hmap : xs.mapM (fun item => do
      let key ← exec keyE (add_runtime_value_to_stack item stack)
      pure (key, item)) with
  | error e => rw [hmap] at hsort; simp at hsort
  | ok pairs =>
    rw [hmap] at hsort
    simp only [mq_bind_ok] at hsort
    cases hsp : sort_pairs pairs with
    | error e => rw [hsp] at hsort; simp at hsort
    | ok sorted =>
      rw [hsp] at hsort
      simp only [mq_bind_ok] at hsort
      have hys : ys = sorted.map Prod.snd := by
        cases hsort
        rfl
      obtain ⟨hsnd, hexec⟩ := withKey_spec exec keyE stack xs pairs hmap
      have hexecSorted : ∀ p ∈ sorted,
          exec keyE (add_runtime_value_to_stack p.2 stack) = .ok p.1 :=
        fun p hp => hexec p (sort_pairs_mem pairs sorted hsp p hp)
      calc ys.filter (keyMatches exec keyE stack k)
          = (sorted.map Prod.snd).filter (keyMatches exec keyE stack k) := by
            rw [hys]
        _ = (sorted.filter (pairKeyEq k)).map Prod.snd :=
            (filter_pairs_snd exec keyE stack k sorted hexecSorted).symm
        _ = (pairs.filter (pairKeyEq k)).map Prod.snd := by
            rw [sort_pairs_filter k pairs sorted hsp]
        _ = (pairs.map Prod.snd).filter (keyMatches exec keyE stack k) :=
            filter_pairs_snd exec keyE stack k pairs hexec
        _ = xs.filter (keyMatches exec keyE stack k) := by rw [hsnd]

/-- Witness for C9 at a concrete input: a constant key function makes
every pair of items compare equal, and the sorted output preserves the
input order. -/
theorem c9_sortby_stable_witness :
    ((fun e s => execute 2 e s) (Expr.value (.array [.boolean true, .null])) [] =
      .ok (.array [.boolean true, .null])) ∧
    (sortby [.value (.number 7), .value (.array [.boolean true, .null])] []
        (fun e s => execute 2 e s) = .ok (.array [.boolean true, .null])) ∧
    (([RuntimeValue.boolean true, .null].filter
        (keyMatches (fun e s => execute 2 e s) (.value (.number 7)) [] (.number 7))) =
      ([RuntimeValue.boolean true, .null].filter
        (keyMatches (fun e s => execute 2 e s) (.value (.number 7)) [] (.number 7)))) :=
  ⟨rfl, rfl,
   c9_sortby_stable (fun e s => execute 2 e s) (.value (.number 7))
     (.value (.array [.boolean true, .null])) [] [.boolean true, .null]
     [.boolean true, .null] (.number 7) rfl rfl⟩

/-- C1: the claim says lowering marks every operator head Ref with
`absolute=true` and that evaluating an absolute Ref restricts lookup to
the root frame, so user bindings never shadow operators.  In this code
the `absolute` half of the machinery is missing: `RefExpression.__init__`
assigns only `name`, `process_lark_tree` passes no `absolute` (first two
conjuncts: every operator node of `function_mappings`, and an indexing
node, lower to a Fncall whose head Ref carries `Option.none` — an unset
attribute — not `true`); `execute` nevertheless reads `ast.absolute`, so
evaluating any reference node raises `AttributeError` (third conjunct)
instead of performing a lookup; only `find_in_stack` implements the
claimed root-frame restriction (fourth conjunct).  Hence every query
containing a reference — in particular every operator application, whose
lowered head is a Ref — crashes, and the claimed shadowing protection
never runs. -/
theorem c1_operator_refs_lack_absolute :
    (∀ (low : LarkNode → Except Err Expr) (i : Fin function_mappings.length)
        (children : List LarkNode),
      process_lark_tree low (.tree (function_mappings.get i).1 children) =
        (from_lark_list low children).map
          (fun args => Expr.fncall (.ref (function_mappings.get i).2 Option.none) args)) ∧
    (∀ (low : LarkNode → Except Err Expr) (base : LarkNode) (d : String)
        (cs : List LarkNode),
      process_lark_tree low (.tree "index"
          [base, .tree "indexing" [.tree "index_innards" [.tree d cs]]]) =
        (low (.tree d cs)).bind (fun eInner =>
          (low base).map (fun eBase =>
            Expr.fncall (.ref "index" Option.none) [eInner, eBase]))) ∧
    (∀ (fuel : Nat) (name : String) (stack : Stack),
      execute (fuel + 1) (.ref name Option.none) stack =
        .error (.attributeError "RefExpression object has no attribute absolute")) ∧
    (∀ (stack : Stack) (name : String),
      find_in_stack stack name true = find_in_stack (stack.take 1) name true) := by
  refine ⟨?_, ?_, ?_, ?_⟩
  · intro low i children
    fin_cases i <;> rfl
  · intro low base d cs
    show (process_index_innards low [.tree d cs] [] true).bind _ = _
    rw [show process_index_innards low [.tree d cs] [] true =
        (low (.tree d cs)).bind (fun e => .ok ([e], false)) from ?_]
    · cases h1 : low (.tree d cs) with
      | error e => rfl
      | ok eInner =>
        show (low base).bind _ = _
        cases h2 : low base with
        | error e => rfl
        | ok eBase => rfl
    · show (low (.tree d cs)).bind _ = _
      cases low (.tree d cs) <;> rfl
  · intro fuel name stack
    rfl
  · intro stack name
    simp [find_in_stack, List.take_take]

end MistQL
